import Mathlib

/-!
A shallow embedding of `tournament.py` from GraylinKim/tournaments.

Participants are identified by their `Participant.id` (`Participant.__eq__`
compares ids only), modelled as natural numbers.  The global bye sentinel
`BY = Participant("BY")` is modelled as the reserved id `0`; theorems about
tournaments of real participants assume `BY` is not among them.

Matches are kept in an arena: a list indexed by creation order, so Python's
object identity on `Match` becomes equality of arena indices.  Mutation is
explicit state passing; a raised Python exception is an `Option Err` paired
with the state at the moment of the raise (mutations made before the raise
persist, as they do on the Python objects).
-/

/-- Participant identity (`Participant.id`). -/
abbrev PId := Nat

/-- Arena index of a match (Python identity of a `Match` object). -/
abbrev MId := Nat

/-- The global sentinel `BY = Participant("BY")`, a reserved id. -/
def BY : PId := 0

/-- A value passed to or stored in `Match.winner`: the `Match.TIE` marker, a
participant, or Python's `None` (as when `report_result(match.home)` is called
on a match whose home slot was never filled). -/
inductive RVal where
  | tie
  | player (p : PId)
  | null
deriving DecidableEq, Repr

/-- The value `Match.report_result` stores in `Match.loser`: the `TIE` marker
or the contents of the non-winning slot (itself possibly `None`). -/
inductive LVal where
  | tie
  | slot (v : Option PId)
deriving DecidableEq, Repr

/-- A Python exception raised by the code. -/
inductive Err where
  | popFromEmpty   -- IndexError: pop from an empty deque
  | noneAttr       -- AttributeError: attribute access on None or on the int TIE
  | keyError       -- KeyError / IndexError: missing dict key or list index
  | mathDomain     -- ValueError: math.log(0)
deriving DecidableEq, Repr

/-- The state of one `Match` object: `home`/`away`/`winner`/`loser` fields.
(`Match.state` is declared in the source but never assigned or read; the
`uuid` plays no role because arena indices already provide identity.) -/
structure MatchD where
  home : Option PId := none
  away : Option PId := none
  winner : Option RVal := none
  loser : Option LVal := none
deriving DecidableEq, Repr, Inhabited

/-- `Match.active`: both players assigned and no winner recorded. -/
def MatchD.active (m : MatchD) : Bool :=
  m.home.isSome && m.away.isSome && m.winner.isNone

/-- `Match.is_complete`: the winner has been assigned. -/
def MatchD.is_complete (m : MatchD) : Bool := m.winner.isSome

/-- Events fired through `CallbackMixin.trigger_event`; handlers are external,
so only the ordered log of fired events is modelled. -/
inductive Event where
  | onStart
  | onMatchReady (i : MId)
  | onMatchComplete (i : MId)
  | onStartRound
  | onComplete
deriving DecidableEq, Repr

/-- The first half of `Match.report_result`: record `winner`, and derive
`loser` (`TIE`, else `away` when `winner == home`, else `home`).  Python's
`winner == self.home` is `True` for a participant with the home id, and for
`None` when the home slot is `None`. -/
def record_result (m : MatchD) (w : RVal) : MatchD :=
  { m with
    winner := some w
    loser := some (match w with
      | .tie => .tie
      | .player p => if m.home = some p then .slot m.away else .slot m.home
      | .null => if m.home = none then .slot m.away else .slot m.home) }

/-- Pointwise update of a score table (`p.tournament_score += d`). -/
def bump (f : PId → Int) (p : PId) (d : Int) : PId → Int :=
  fun q => if q = p then f q + d else f q

/-- `Tournament.calc_match_points`: tie gives each slot 1 point, otherwise the
winner gets 3 and the loser 0.  Attribute access on `None` (an empty slot, an
unset winner) or on the int `TIE` stored in `loser` raises; score increments
made before the raise persist. -/
def calc_match_points (score : PId → Int) (m : MatchD) : (PId → Int) × Option Err :=
  match m.winner with
  | some .tie =>
    match m.home with
    | none => (score, some .noneAttr)
    | some h =>
      match m.away with
      | none => (bump score h 1, some .noneAttr)
      | some a => (bump (bump score h 1) a 1, none)
  | some (.player p) =>
    match m.loser with
    | some (.slot (some q)) => (bump (bump score p 3) q 0, none)
    | _ => (bump score p 3, some .noneAttr)
  | _ => (score, some .noneAttr)

/-- Stable descending insertion for `Tournament.get_players_by_rank`: place `p`
before the first entry whose score is not larger, so earlier list positions win
ties — the behaviour of Python's stable `sorted`. -/
def insertRanked (score : PId → Int) (p : PId) : List PId → List PId
  | [] => [p]
  | q :: qs => if score q ≤ score p then p :: q :: qs else q :: insertRanked score p qs

/-- `Tournament.get_players_by_rank`:
`sorted(self.participants, key=lambda p: p.tournament_score, reverse=True)` —
a stable descending sort of the (unmodified) participants list.  `sorted`
builds a new list, so this is a pure function of the state. -/
def get_players_by_rank (score : PId → Int) (participants : List PId) : List PId :=
  participants.foldr (insertRanked score) []

/-- Append to a participant's `match_history` (`Participant.set_current_match`). -/
def pushHistory (h : PId → List MId) (p : PId) (i : MId) : PId → List MId :=
  fun q => if q = p then h q ++ [i] else h q

/-- Set a participant's `current_match` (`Participant.set_current_match`). -/
def setCur (c : PId → Option MId) (p : PId) (i : MId) : PId → Option MId :=
  fun q => if q = p then some i else c q

/-- `self.opponents.setdefault(x, []).append(y)` on the opponents mapping
(absent keys read as `[]`). -/
def addOpp (o : PId → List PId) (x y : PId) : PId → List PId :=
  fun p => if p = x then o p ++ [y] else o p

/-- The state of a `SwissTournament` object.  `Tournament.matchList` coincides
with the arena because the Swiss format appends every match at creation. -/
structure SwissState where
  matchList : List MatchD := []
  participants : List PId
  score : PId → Int := fun _ => 0
  history : PId → List MId := fun _ => []
  currentMatch : PId → Option MId := fun _ => none
  opponents : PId → List PId := fun _ => []
  currentRound : Nat := 0
  rounds : Nat
  matchesPerRound : Nat := 0
  numPlayers : Nat := 0
  events : List Event := []

/-- `SwissTournament(rounds, participants=ps)`: the constructor performs no
validation of the participant count. -/
def mkSwiss (rounds : Nat) (ps : List PId) : SwissState :=
  { participants := ps, rounds := rounds }

/-- The body of `SwissTournament.setup_round`'s while-loop for one `home`:
create the match, call `set_current_match` on both players, record both
opponent directions, append the match and fire `on_match_ready`. -/
def createSwissMatch (s : SwissState) (h a : PId) : SwissState :=
  let i := s.matchList.length
  { s with
    matchList := s.matchList ++ [{ home := some h, away := some a }]
    history := pushHistory (pushHistory s.history h i) a i
    currentMatch := setCur (setCur s.currentMatch h i) a i
    opponents := addOpp (addOpp s.opponents h a) a h
    events := s.events ++ [.onMatchReady i] }

/-- The while-loop of `SwissTournament.setup_round`, driven by structural fuel
(every iteration shortens the queue, so fuel = initial queue length suffices
and the fuel-exhausted branch is unreachable): pop the front as `home`; scan
the rest for the first player not yet an opponent of `home` and remove it
(`players.remove(away)` removes the first equal element), falling back
(`for ... else`) to popping the new front; popping an empty deque raises
IndexError. -/
def pairLoopSwGo : Nat → SwissState → List PId → SwissState × Option Err
  | 0, s, _ => (s, none)
  | fuel + 1, s, queue =>
    match queue with
    | [] => (s, none)
    | home :: rest =>
      match rest.find? (fun p => decide (p ∉ s.opponents home)) with
      | some away => pairLoopSwGo fuel (createSwissMatch s home away) (rest.erase away)
      | none =>
        match rest with
        | [] => (s, some .popFromEmpty)
        | away :: rest' => pairLoopSwGo fuel (createSwissMatch s home away) rest'

/-- The while-loop of `SwissTournament.setup_round` on a freshly built queue. -/
def pairLoopSw (s : SwissState) (queue : List PId) : SwissState × Option Err :=
  pairLoopSwGo queue.length s queue

/-- `SwissTournament.setup_round`. -/
def setup_round (s : SwissState) : SwissState × Option Err :=
  let s1 := { s with currentRound := s.currentRound + 1 }
  match pairLoopSw s1 (get_players_by_rank s1.score s1.participants) with
  | (s2, none) => ({ s2 with events := s2.events ++ [.onStartRound] }, none)
  | e => e

/-- `SwissTournament.is_round_complete` (no match is still incomplete). -/
def is_round_complete (s : SwissState) : Bool :=
  s.matchList.all MatchD.is_complete

/-- `SwissTournament.process_match_result`: when every match is completed,
either set up the next round or, after the last round, fire `on_complete`. -/
def process_match_result_swiss (s : SwissState) : SwissState × Option Err :=
  if is_round_complete s then
    if s.currentRound ≠ s.rounds then setup_round s
    else ({ s with events := s.events ++ [.onComplete] }, none)
  else (s, none)

/-- `Tournament.handle_match_result` for the Swiss format: score the match,
fire `on_match_complete`, then run the format's advancement. -/
def handle_match_result_swiss (s : SwissState) (i : MId) (m : MatchD) :
    SwissState × Option Err :=
  match calc_match_points s.score m with
  | (sc, some e) => ({ s with score := sc }, some e)
  | (sc, none) =>
    process_match_result_swiss
      { s with score := sc, events := s.events ++ [.onMatchComplete i] }

/-- `Match.report_result(winner)` on match `i` of a Swiss tournament: record
winner and loser (no validation of any kind), then hand off to the owning
tournament's `handle_match_result`. -/
def report_result_swiss (s : SwissState) (i : MId) (w : RVal) :
    SwissState × Option Err :=
  match s.matchList.get? i with
  | none => (s, some .keyError)
  | some m =>
    let m' := record_result m w
    handle_match_result_swiss { s with matchList := s.matchList.set i m' } i m'

/-- `Tournament.start` for a Swiss tournament: snapshot the player count, keep
insertion order (`order_players_by_initial_rank` is a no-op), reset all
participant scores, fire `on_start`, then `seed_players` (which records the
unused `matches_per_round` and runs the first `setup_round`). -/
def start_swiss (s : SwissState) : SwissState × Option Err :=
  let s1 := { s with
    numPlayers := s.participants.length
    score := fun p => if p ∈ s.participants then 0 else s.score p
    events := s.events ++ [.onStart]
    matchesPerRound := s.participants.length / 2 }
  setup_round s1

/-- Fuel-driven search for the ceiling of log₂ starting at exponent `k`. -/
def ceilLog2Go (n : Nat) : Nat → Nat → Nat
  | 0, k => k
  | fuel + 1, k => if n ≤ 2 ^ k then k else ceilLog2Go n fuel (k + 1)

/-- The smallest `k` with `n ≤ 2 ^ k`, for `n ≥ 1` (`n` steps of fuel always
suffice because `n ≤ 2 ^ n`).  This is the exact mathematical ceiling of
log₂; the code's `int(math.ceil(math.log(n, 2)))` computes it in double
precision (`log(n)/log(2)` via the platform libm) and can stray from it at
reachable counts — at `n = 2 ^ 29` the computed quotient exceeds 29, so the
code returns 30 where this function returns 29.  The idealization is an
over-approximation of the code wherever the two disagree. -/
def ceilLog2 (n : Nat) : Nat := ceilLog2Go n n 0

/-- Lookup in a Python dict modelled as an insertion-ordered association list
(keys are unique in every dict the code builds). -/
def alookup {β : Type} : List (MId × β) → MId → Option β
  | [], _ => none
  | (k', v) :: rest, k => if k = k' then some v else alookup rest k

/-- The state of a `SingleEliminationTournament` object.  `arena` holds every
`Match` object ever constructed, in creation order (identity = index);
`matchList` is `Tournament.matches`, which this format fills only in the
bracket-building loop, leaves before ancestors. -/
structure ElimState where
  arena : List MatchD := []
  matchList : List MId := []
  participants : List PId
  score : PId → Int := fun _ => 0
  history : PId → List MId := fun _ => []
  currentMatch : PId → Option MId := fun _ => none
  bracket : List (MId × MId) := []
  sources : List (MId × MId × MId) := []
  numPlayers : Nat := 0
  rounds : Nat := 0
  fieldSize : Nat := 0
  events : List Event := []

/-- `SingleEliminationTournament(participants=ps)`. -/
def mkElim (ps : List PId) : ElimState :=
  { participants := ps }

/-- `SingleEliminationTournament.process_match_result`: if the completed match
has no `bracket` entry it was the final (`on_complete`); otherwise record the
winner's next match, assign the winner into the parent slot matching the
provenance pair in `sources`, and fire `on_match_ready` once the parent is
active.  `match.winner.set_current_match(...)` raises on the int `TIE` and on
`None`. -/
def process_match_result_elim (s : ElimState) (i : MId) : ElimState × Option Err :=
  match alookup s.bracket i with
  | none => ({ s with events := s.events ++ [.onComplete] }, none)
  | some p =>
    match s.arena.get? i with
    | none => (s, some .keyError)
    | some m =>
      match m.winner with
      | some (.player w) =>
        let s1 := { s with
          history := pushHistory s.history w p
          currentMatch := setCur s.currentMatch w p }
        match alookup s1.sources p with
        | none => (s1, some .keyError)
        | some (hsrc, _asrc) =>
          match s1.arena.get? p with
          | none => (s1, some .keyError)
          | some pm =>
            let pm' := if i = hsrc then { pm with home := some w }
                       else { pm with away := some w }
            let s2 := { s1 with arena := s1.arena.set p pm' }
            if pm'.active then
              ({ s2 with events := s2.events ++ [.onMatchReady p] }, none)
            else (s2, none)
      | _ => (s, some .noneAttr)

/-- `Tournament.handle_match_result` for the elimination format. -/
def handle_match_result_elim (s : ElimState) (i : MId) (m : MatchD) :
    ElimState × Option Err :=
  match calc_match_points s.score m with
  | (sc, some e) => ({ s with score := sc }, some e)
  | (sc, none) =>
    process_match_result_elim
      { s with score := sc, events := s.events ++ [.onMatchComplete i] } i

/-- `Match.report_result(winner)` on match `i` of an elimination tournament. -/
def report_result_elim (s : ElimState) (i : MId) (w : RVal) :
    ElimState × Option Err :=
  match s.arena.get? i with
  | none => (s, some .keyError)
  | some m =>
    let m' := record_result m w
    handle_match_result_elim { s with arena := s.arena.set i m' } i m'

/-- First loop of `SingleEliminationTournament.seed_players` for one iteration:
construct the leaf match for `home` (front of the queue) and `away` (back),
call `set_current_match` on both, and fire `on_match_ready`.  (The loop also
sets a `score` attribute on both players; that attribute is distinct from
`tournament_score` and is never read, so it is not modelled.) -/
def createLeaf (s : ElimState) (h a : PId) : ElimState :=
  let i := s.arena.length
  { s with
    arena := s.arena ++ [{ home := some h, away := some a }]
    history := pushHistory (pushHistory s.history h i) a i
    currentMatch := setCur (setCur s.currentMatch h i) a i
    events := s.events ++ [.onMatchReady i] }

/-- The `while player_queue` loop of `seed_players`, driven by structural fuel
(each iteration shortens the queue, so fuel = initial queue length suffices):
repeatedly pop the front and the back of the player queue into a leaf match;
`pop()` on the empty deque left by a queue of odd length raises IndexError. -/
def seedLoopGo : Nat → ElimState → List PId → ElimState × Option Err
  | 0, s, _ => (s, none)
  | fuel + 1, s, q =>
    match q with
    | [] => (s, none)
    | h :: rest =>
      match rest.getLast? with
      | none => (s, some .popFromEmpty)
      | some a => seedLoopGo fuel (createLeaf s h a) rest.dropLast

/-- The `while player_queue` loop of `seed_players` on the freshly built queue. -/
def seedLoop (s : ElimState) (q : List PId) : ElimState × Option Err :=
  seedLoopGo q.length s q

/-- The `while len(match_queue) > 1` loop of `seed_players` plus the final
`matches.append(match_queue.pop())`: pair queued matches two at a time into a
fresh empty placeholder, record parent (`bracket`) and provenance (`sources`)
entries, append the two popped matches to `Tournament.matches`, requeue the
placeholder, and finally append the last remaining match (the final). -/
def bracketLoopGo : Nat → ElimState → List MId → ElimState × Option Err
  | 0, s, _ => (s, none)
  | fuel + 1, s, q =>
    match q with
    | [] => (s, some .popFromEmpty)
    | [m] => ({ s with matchList := s.matchList ++ [m] }, none)
    | top :: bot :: rest =>
      let i := s.arena.length
      bracketLoopGo fuel
        { s with
          arena := s.arena ++ [{}]
          bracket := s.bracket ++ [(top, i), (bot, i)]
          sources := s.sources ++ [(i, top, bot)]
          matchList := s.matchList ++ [top, bot] }
        (rest ++ [i])

/-- The bracket-building loop of `seed_players` on the initial match queue
(each iteration shortens the queue by one, so fuel = queue length suffices). -/
def bracketLoop (s : ElimState) (q : List MId) : ElimState × Option Err :=
  bracketLoopGo q.length s q

/-- The `for match in self.matches` loop of `seed_players`: report every match
whose away slot is the `BY` sentinel as won by its home participant, in match
list order (cascading through `process_match_result` as it goes). -/
def byeLoop (s : ElimState) (l : List MId) : ElimState × Option Err :=
  match l with
  | [] => (s, none)
  | i :: rest =>
    match s.arena.get? i with
    | none => (s, some .keyError)
    | some m =>
      if m.away = some BY then
        match report_result_elim s i
            (match m.home with | none => .null | some h => .player h) with
        | (s', none) => byeLoop s' rest
        | e => e
      else byeLoop s rest

/-- `SingleEliminationTournament.seed_players`.  `int(math.ceil(math.log(n,
2)))` is modelled as the exact ceiling `ceilLog2 n`; the code's
double-precision computation deviates from that ceiling at some reachable
counts (e.g. it yields 30 at `n = 2 ^ 29`, choosing a field of `2 ^ 30`), so
statements about the round count and field size describe the exact-ceiling
idealization, not the floating-point deviations (`math.log(0)` raises).  The
match queue passed to the bracket loop is the list of leaf ids in creation
order. -/
def seed_players_elim (s : ElimState) : ElimState × Option Err :=
  if s.numPlayers = 0 then (s, some .mathDomain)
  else
    let r := ceilLog2 s.numPlayers
    let fs := 2 ^ r
    let s1 := { s with rounds := r, fieldSize := fs }
    match seedLoop s1 (s1.participants ++ List.replicate (fs - s1.numPlayers) BY) with
    | (s2, some e) => (s2, some e)
    | (s2, none) =>
      match bracketLoop s2 (List.range s2.arena.length) with
      | (s3, some e) => (s3, some e)
      | (s3, none) => byeLoop s3 s3.matchList

/-- `Tournament.start` for a single-elimination tournament. -/
def start_elim (s : ElimState) : ElimState × Option Err :=
  let s1 := { s with
    numPlayers := s.participants.length
    score := fun p => if p ∈ s.participants then 0 else s.score p
    events := s.events ++ [.onStart] }
  seed_players_elim s1

/-- Changing only the configured round count of a Swiss tournament (used to
state that no other part of the engine depends on it). -/
def setRounds (s : SwissState) (r : Nat) : SwissState := { s with rounds := r }

/-- The state of a freshly seeded single-elimination tournament over
participants `ps` with field size `F` (the padded power of two), after the
first `k` iterations of the bye-resolution loop: the bracket structure laid
down by `seed_players`, the leaf pairings over the padded queue, the winners
of the byes already auto-reported, the placeholder slots holding only real
participants, and the scores granted so far. -/
def SeedInv (ps : List PId) (F : Nat) (k : Nat) (s : ElimState) : Prop :=
  s.arena.length = F - 1 ∧
  s.matchList = List.range (F - 1) ∧
  s.bracket.map Prod.fst = List.range (F - 2) ∧
  (∀ cp ∈ s.bracket, F / 2 ≤ cp.2 ∧ cp.2 < F - 1) ∧
  s.sources.map (fun x => x.1) = List.range' (F / 2) (F / 2 - 1) ∧
  (∀ cp ∈ s.bracket, ∃ x y, (cp.2, x, y) ∈ s.sources ∧ (cp.1 = x ∨ cp.1 = y)) ∧
  (∀ i, i < F / 2 → ∃ mi, s.arena.get? i = some mi ∧
    mi.home = some ((ps ++ List.replicate (F - ps.length) BY).getD i 0) ∧
    mi.away = some ((ps ++ List.replicate (F - ps.length) BY).getD (F - 1 - i) 0) ∧
    mi.winner = (if i < min k (F - ps.length)
      then some (.player (ps.getD i 0)) else none)) ∧
  (∀ p, F / 2 ≤ p → p < F - 1 → ∃ mp, s.arena.get? p = some mp ∧
    mp.winner = none ∧
    (∀ x, mp.home = some x → x ∈ ps) ∧ (∀ x, mp.away = some x → x ∈ ps)) ∧
  (∀ x, s.score x = (if x ∈ ps.take (min k (F - ps.length)) then 3 else 0))

/-- A small bracket state used to witness the advancement characterization:
two completed leaves feeding one empty placeholder (their parent, the final).
-/
def elimDemoState : ElimState :=
  { participants := [1, 2, 3, 4]
    arena := [{ home := some 1, away := some 2, winner := some (.player 1),
                loser := some (.slot (some 2)) },
              { home := some 3, away := some 4, winner := some (.player 3),
                loser := some (.slot (some 4)) },
              {}]
    matchList := [0, 1, 2]
    bracket := [(0, 2), (1, 2)]
    sources := [(2, 0, 1)] }

/-- The completed bye match produced at slot 0 when seeding participants
`[1, 2, 3]` (a concrete value used when exercising the bye lemmas). -/
def demoByeMatch : MatchD :=
  { home := some 1
    away := some 0
    winner := some (RVal.player 1)
    loser := some (LVal.slot (some 0)) }

/-! ## Theorems -/


/-- Claim C1, counterexample.  The claim says a second `report_result` on an
already-Completed match fails with a specific error and leaves every score
unchanged.  In a one-round Swiss tournament of two players, after player 1's
win is reported (score 3), reporting the same result again raises no error and
scores the match a second time, lifting player 1's score to 6. -/
theorem c1_counterexample :
    let s1 := (report_result_swiss (start_swiss (mkSwiss 1 [1, 2])).1 0 (.player 1)).1
    (s1.matchList.getD 0 default).is_complete = true ∧
    s1.score 1 = 3 ∧
    (report_result_swiss s1 0 (.player 1)).2 = none ∧
    (report_result_swiss s1 0 (.player 1)).1.score 1 = 6 :=
  ⟨rfl, rfl, rfl, rfl⟩

/-- Claim C2, counterexample.  Swiss, participants `[1, 2, 3, 4]`, two rounds.
Round 1: 2 beats 1, 3 beats 4; the ranking computed while pairing round 2 is
`[2, 3, 1, 4]` — participant 2 ahead of participant 1.  Round 2: 3 beats 2 and
1 beats 4, leaving 1 and 2 tied at 3 points.  The claim says `rank()` must
preserve their order from that most recent prior ranking (2 before 1), but it
returns `[3, 1, 2, 4]`: ties are broken by the stored participants list
(insertion order), which `sorted` never reorders. -/
theorem c2_counterexample :
    let t0 := (start_swiss (mkSwiss 2 [1, 2, 3, 4])).1
    let tB := (report_result_swiss (report_result_swiss t0 0 (.player 2)).1 1 (.player 3)).1
    let tD := (report_result_swiss (report_result_swiss tB 2 (.player 3)).1 3 (.player 1)).1
    get_players_by_rank tB.score tB.participants = [2, 3, 1, 4] ∧
    tD.score 1 = 3 ∧ tD.score 2 = 3 ∧
    get_players_by_rank tD.score tD.participants = [3, 1, 2, 4] :=
  ⟨rfl, rfl, rfl, rfl⟩

/-- Claim C8, counterexample.  The claim says an odd participant count is a
configuration error rejected at construction or at latest at `start()`, rather
than being paired.  Neither the constructor nor `start()` validates the count:
with participants `[1, 2, 3]`, `start()` pairs 1 against 2, fires
`on_match_ready`, and only then dies on an IndexError (`popleft` from the
emptied deque) while pairing the leftover participant 3. -/
theorem c8_counterexample :
    (start_swiss (mkSwiss 1 [1, 2, 3])).2 = some .popFromEmpty ∧
    (start_swiss (mkSwiss 1 [1, 2, 3])).1.matchList.length = 1 ∧
    (start_swiss (mkSwiss 1 [1, 2, 3])).1.matchList.getD 0 default =
      { home := some 1, away := some 2 } ∧
    (start_swiss (mkSwiss 1 [1, 2, 3])).1.events = [.onStart, .onMatchReady 0] :=
  ⟨rfl, rfl, rfl, rfl⟩


theorem setRounds_matchList (s : SwissState) (r : Nat) :
    (setRounds s r).matchList = s.matchList := rfl

theorem setRounds_score (s : SwissState) (r : Nat) :
    (setRounds s r).score = s.score := rfl

theorem setRounds_participants (s : SwissState) (r : Nat) :
    (setRounds s r).participants = s.participants := rfl

theorem pairLoopSwGo_cons (fuel : Nat) (s : SwissState) (home : PId) (rest : List PId) :
    pairLoopSwGo (fuel + 1) s (home :: rest) =
      match rest.find? (fun p => decide (p ∉ s.opponents home)) with
      | some away => pairLoopSwGo fuel (createSwissMatch s home away) (rest.erase away)
      | none =>
        match rest with
        | [] => (s, some Err.popFromEmpty)
        | away :: rest' => pairLoopSwGo fuel (createSwissMatch s home away) rest' := rfl

/-- No function inside the round-pairing loop reads the configured round count. -/
theorem pairLoopSwGo_setRounds (fuel : Nat) :
    ∀ (s : SwissState) (r : Nat) (q : List PId),
    pairLoopSwGo fuel (setRounds s r) q =
      (setRounds (pairLoopSwGo fuel s q).1 r, (pairLoopSwGo fuel s q).2) := by
  induction fuel with
  | zero => intro s r q; rfl
  | succ fuel ih =>
    intro s r q
    cases q with
    | nil => rfl
    | cons home rest =>
      show pairLoopSwGo (fuel + 1) { s with rounds := r } (home :: rest) = _
      rw [pairLoopSwGo_cons, pairLoopSwGo_cons]
      cases rest.find? (fun p => decide (p ∉ s.opponents home)) with
      | some away => exact ih (createSwissMatch s home away) r (rest.erase away)
      | none =>
        cases rest with
        | nil => rfl
        | cons away rest' => exact ih (createSwissMatch s home away) r rest'

/-- `setup_round` reads everything except the configured round count. -/
theorem setup_round_setRounds (s : SwissState) (r : Nat) :
    setup_round (setRounds s r) = (setRounds (setup_round s).1 r, (setup_round s).2) := by
  obtain ⟨ml, ps, sc, hi, cm, op, cr, rd, mpr, np, ev⟩ := s
  simp only [setRounds, setup_round, pairLoopSw]
  have hP : pairLoopSwGo (get_players_by_rank sc ps).length
        ⟨ml, ps, sc, hi, cm, op, cr + 1, r, mpr, np, ev⟩ (get_players_by_rank sc ps) =
      (setRounds (pairLoopSwGo (get_players_by_rank sc ps).length
          ⟨ml, ps, sc, hi, cm, op, cr + 1, rd, mpr, np, ev⟩ (get_players_by_rank sc ps)).1 r,
       (pairLoopSwGo (get_players_by_rank sc ps).length
          ⟨ml, ps, sc, hi, cm, op, cr + 1, rd, mpr, np, ev⟩ (get_players_by_rank sc ps)).2) :=
    pairLoopSwGo_setRounds (get_players_by_rank sc ps).length
      ⟨ml, ps, sc, hi, cm, op, cr + 1, rd, mpr, np, ev⟩ r (get_players_by_rank sc ps)
  rw [hP]
  cases pairLoopSwGo (get_players_by_rank sc ps).length
      ⟨ml, ps, sc, hi, cm, op, cr + 1, rd, mpr, np, ev⟩ (get_players_by_rank sc ps) with
  | mk t e =>
    cases e with
    | none => rfl
    | some err => rfl

/-- `process_match_result_swiss` reads the configured round count only in the
comparison with the current round. -/
theorem process_setRounds (s : SwissState) (r : Nat)
    (h1 : ¬s.currentRound = r) (h2 : ¬s.currentRound = s.rounds) :
    process_match_result_swiss (setRounds s r) =
      (setRounds (process_match_result_swiss s).1 r, (process_match_result_swiss s).2) := by
  obtain ⟨ml, ps, sc, hi, cm, op, cr, rd, mpr, np, ev⟩ := s
  simp only [setRounds, process_match_result_swiss, is_round_complete] at h1 h2 ⊢
  by_cases hc : ml.all MatchD.is_complete = true
  · rw [if_pos hc, if_pos hc, if_pos h1, if_pos h2]
    exact setup_round_setRounds ⟨ml, ps, sc, hi, cm, op, cr, rd, mpr, np, ev⟩ r
  · rw [if_neg hc, if_neg hc]

/-- `handle_match_result` substitution for the configured round count. -/
theorem handle_setRounds (s : SwissState) (i : MId) (m : MatchD) (r : Nat)
    (h1 : ¬s.currentRound = r) (h2 : ¬s.currentRound = s.rounds) :
    handle_match_result_swiss (setRounds s r) i m =
      (setRounds (handle_match_result_swiss s i m).1 r,
       (handle_match_result_swiss s i m).2) := by
  obtain ⟨ml, ps, sc, hi, cm, op, cr, rd, mpr, np, ev⟩ := s
  simp only [setRounds, handle_match_result_swiss] at h1 h2 ⊢
  cases calc_match_points sc m with
  | mk sc' e =>
    cases e with
    | none =>
      exact process_setRounds
        ⟨ml, ps, sc', hi, cm, op, cr, rd, mpr, np, ev ++ [Event.onMatchComplete i]⟩ r h1 h2
    | some err => rfl

/-- `Match.report_result` substitution for the configured round count. -/
theorem report_setRounds (s : SwissState) (i : MId) (w : RVal) (r : Nat)
    (h1 : ¬s.currentRound = r) (h2 : ¬s.currentRound = s.rounds) :
    report_result_swiss (setRounds s r) i w =
      (setRounds (report_result_swiss s i w).1 r, (report_result_swiss s i w).2) := by
  obtain ⟨ml, ps, sc, hi, cm, op, cr, rd, mpr, np, ev⟩ := s
  simp only [setRounds, report_result_swiss] at h1 h2 ⊢
  cases ml.get? i with
  | none => rfl
  | some m =>
    exact handle_setRounds
      ⟨ml.set i (record_result m w), ps, sc, hi, cm, op, cr, rd, mpr, np, ev⟩ i
      (record_result m w) r h1 h2

/-- `Tournament.start` substitution for the configured round count. -/
theorem start_setRounds (s : SwissState) (r : Nat) :
    start_swiss (setRounds s r) =
      (setRounds (start_swiss s).1 r, (start_swiss s).2) := by
  obtain ⟨ml, ps, sc, hi, cm, op, cr, rd, mpr, np, ev⟩ := s
  simp only [setRounds, start_swiss] at *
  exact setup_round_setRounds
    ⟨ml, ps, fun p => if p ∈ ps then 0 else sc p, hi, cm, op, cr, rd, ps.length / 2,
     ps.length, ev ++ [Event.onStart]⟩ r

/-- Claim C7: in the round-based format with participants `[1, 2, 3, 4]`
(A, B, C, D in insertion order), all scores 0, and any configured round count
of at least 2: round 1 creates exactly the matches A–B and C–D; after A and C
are reported as winners (scores A 3, B 0, C 3, D 0), the ranking used for
round 2 is `[A, C, B, D]` and round 2 creates exactly A–C and B–D. -/
theorem c7_round_pairing (r : Nat) (hr : 2 ≤ r) :
    ((start_swiss (mkSwiss r [1, 2, 3, 4])).1.matchList.length = 2 ∧
     (start_swiss (mkSwiss r [1, 2, 3, 4])).1.matchList.getD 0 default =
       { home := some 1, away := some 2 } ∧
     (start_swiss (mkSwiss r [1, 2, 3, 4])).1.matchList.getD 1 default =
       { home := some 3, away := some 4 }) ∧
    (let sB := (report_result_swiss
        (report_result_swiss (start_swiss (mkSwiss r [1, 2, 3, 4])).1 0 (.player 1)).1
        1 (.player 3)).1
     sB.score 1 = 3 ∧ sB.score 2 = 0 ∧ sB.score 3 = 3 ∧ sB.score 4 = 0 ∧
     get_players_by_rank sB.score sB.participants = [1, 3, 2, 4] ∧
     sB.matchList.length = 4 ∧
     sB.matchList.getD 2 default = { home := some 1, away := some 3 } ∧
     sB.matchList.getD 3 default = { home := some 2, away := some 4 }) := by
  have h1r : ¬(1 : Nat) = r := by omega
  have e0 : (start_swiss (mkSwiss r [1, 2, 3, 4])).1 =
      setRounds (start_swiss (mkSwiss 2 [1, 2, 3, 4])).1 r :=
    congrArg Prod.fst (start_setRounds (mkSwiss 2 [1, 2, 3, 4]) r)
  rw [e0]
  have hA : (report_result_swiss (setRounds (start_swiss (mkSwiss 2 [1, 2, 3, 4])).1 r)
        0 (.player 1)).1 =
      setRounds (report_result_swiss (start_swiss (mkSwiss 2 [1, 2, 3, 4])).1
        0 (.player 1)).1 r :=
    congrArg Prod.fst
      (report_setRounds (start_swiss (mkSwiss 2 [1, 2, 3, 4])).1 0 (.player 1) r
        h1r (by decide))
  rw [hA]
  have hB : (report_result_swiss (setRounds (report_result_swiss
        (start_swiss (mkSwiss 2 [1, 2, 3, 4])).1 0 (.player 1)).1 r) 1 (.player 3)).1 =
      setRounds (report_result_swiss (report_result_swiss
        (start_swiss (mkSwiss 2 [1, 2, 3, 4])).1 0 (.player 1)).1 1 (.player 3)).1 r :=
    congrArg Prod.fst
      (report_setRounds (report_result_swiss
          (start_swiss (mkSwiss 2 [1, 2, 3, 4])).1 0 (.player 1)).1 1 (.player 3) r
        h1r (by decide))
  rw [hB]
  exact ⟨⟨rfl, rfl, rfl⟩, rfl, rfl, rfl, rfl, rfl, rfl, rfl, rfl⟩

/-- Witness for C7 at the smallest admissible configuration, two rounds. -/
theorem c7_round_pairing_witness :
    ((start_swiss (mkSwiss 2 [1, 2, 3, 4])).1.matchList.length = 2 ∧
     (start_swiss (mkSwiss 2 [1, 2, 3, 4])).1.matchList.getD 0 default =
       { home := some 1, away := some 2 } ∧
     (start_swiss (mkSwiss 2 [1, 2, 3, 4])).1.matchList.getD 1 default =
       { home := some 3, away := some 4 }) ∧
    (let sB := (report_result_swiss
        (report_result_swiss (start_swiss (mkSwiss 2 [1, 2, 3, 4])).1 0 (.player 1)).1
        1 (.player 3)).1
     sB.score 1 = 3 ∧ sB.score 2 = 0 ∧ sB.score 3 = 3 ∧ sB.score 4 = 0 ∧
     get_players_by_rank sB.score sB.participants = [1, 3, 2, 4] ∧
     sB.matchList.length = 4 ∧
     sB.matchList.getD 2 default = { home := some 1, away := some 3 } ∧
     sB.matchList.getD 3 default = { home := some 2, away := some 4 }) :=
  c7_round_pairing 2 (Nat.le_refl 2)

theorem insertRanked_perm (score : PId → Int) (p : PId) (l : List PId) :
    (insertRanked score p l).Perm (p :: l) := by
  induction l with
  | nil => exact List.Perm.refl _
  | cons q qs ih =>
    by_cases h : score q ≤ score p
    · simp [insertRanked, h]
    · simp only [insertRanked, if_neg h]
      exact (ih.cons q).trans (List.Perm.swap p q qs)

theorem get_players_by_rank_perm (score : PId → Int) (l : List PId) :
    (get_players_by_rank score l).Perm l := by
  induction l with
  | nil => exact List.Perm.refl _
  | cons p qs ih => exact (insertRanked_perm score p _).trans (ih.cons p)

theorem insertRanked_sorted (score : PId → Int) (p : PId) (l : List PId)
    (h : List.Sorted (fun a b => score b ≤ score a) l) :
    List.Sorted (fun a b => score b ≤ score a) (insertRanked score p l) := by
  induction l with
  | nil => simp [insertRanked]
  | cons q qs ih =>
    rw [List.sorted_cons] at h
    by_cases hc : score q ≤ score p
    · rw [insertRanked, if_pos hc, List.sorted_cons]
      refine ⟨?_, List.sorted_cons.mpr h⟩
      intro b hb
      rcases List.mem_cons.mp hb with rfl | hb
      · exact hc
      · exact le_trans (h.1 b hb) hc
    · rw [insertRanked, if_neg hc, List.sorted_cons]
      refine ⟨?_, ih h.2⟩
      intro b hb
      have hb' := (insertRanked_perm score p qs).mem_iff.mp hb
      rcases List.mem_cons.mp hb' with rfl | hb'
      · exact le_of_not_le hc
      · exact h.1 b hb'

theorem get_players_by_rank_sorted (score : PId → Int) (l : List PId) :
    List.Sorted (fun a b => score b ≤ score a) (get_players_by_rank score l) := by
  induction l with
  | nil => simp [get_players_by_rank]
  | cons p qs ih => exact insertRanked_sorted score p _ ih

theorem insertRanked_filter (score : PId → Int) (p : PId) (c : Int) (l : List PId) :
    (insertRanked score p l).filter (fun q => decide (score q = c)) =
      if score p = c then p :: l.filter (fun q => decide (score q = c))
      else l.filter (fun q => decide (score q = c)) := by
  induction l with
  | nil =>
    by_cases hp : score p = c
    · simp [insertRanked, List.filter, hp]
    · simp [insertRanked, List.filter, hp]
  | cons q qs ih =>
    by_cases hc : score q ≤ score p
    · rw [insertRanked, if_pos hc]
      by_cases hp : score p = c
      · simp [List.filter_cons, hp]
      · simp [List.filter_cons, hp]
    · rw [insertRanked, if_neg hc]
      by_cases hp : score p = c
      · have hq : ¬score q = c := by
          intro hqc
          exact hc (le_of_eq (hqc.trans hp.symm))
        rw [if_pos hp] at ih ⊢
        simp [List.filter_cons, ih, hq]
      · rw [if_neg hp] at ih ⊢
        simp [List.filter_cons, ih]

theorem get_players_by_rank_filter (score : PId → Int) (c : Int) (l : List PId) :
    (get_players_by_rank score l).filter (fun q => decide (score q = c)) =
      l.filter (fun q => decide (score q = c)) := by
  induction l with
  | nil => rfl
  | cons p qs ih =>
    show (insertRanked score p (get_players_by_rank score qs)).filter _ = _
    rw [insertRanked_filter, ih]
    by_cases hp : score p = c
    · simp [List.filter_cons, hp]
    · simp [List.filter_cons, hp]

/-- The pairing loop only appends matches and never touches participants,
scores, or the round counters. -/
theorem pairLoopSwGo_frame (fuel : Nat) :
    ∀ (s : SwissState) (q : List PId),
    ((pairLoopSwGo fuel s q).1).participants = s.participants ∧
    ((pairLoopSwGo fuel s q).1).score = s.score ∧
    s.matchList.length ≤ ((pairLoopSwGo fuel s q).1).matchList.length ∧
    (∀ j, j < s.matchList.length →
      ((pairLoopSwGo fuel s q).1).matchList.get? j = s.matchList.get? j) := by
  induction fuel with
  | zero => exact fun s q => ⟨rfl, rfl, Nat.le_refl _, fun j _ => rfl⟩
  | succ fuel ih =>
    intro s q
    cases q with
    | nil => exact ⟨rfl, rfl, Nat.le_refl _, fun j _ => rfl⟩
    | cons home rest =>
      rw [pairLoopSwGo_cons]
      have key : ∀ (away : PId) (q' : List PId),
          ((pairLoopSwGo fuel (createSwissMatch s home away) q').1).participants =
            s.participants ∧
          ((pairLoopSwGo fuel (createSwissMatch s home away) q').1).score = s.score ∧
          s.matchList.length ≤
            ((pairLoopSwGo fuel (createSwissMatch s home away) q').1).matchList.length ∧
          (∀ j, j < s.matchList.length →
            ((pairLoopSwGo fuel (createSwissMatch s home away) q').1).matchList.get? j =
              s.matchList.get? j) := by
        intro away q'
        obtain ⟨h1, h2, h3, h4⟩ := ih (createSwissMatch s home away) q'
        refine ⟨h1, h2, ?_, ?_⟩
        · calc s.matchList.length
              ≤ (createSwissMatch s home away).matchList.length := by
                simp [createSwissMatch]
            _ ≤ _ := h3
        · intro j hj
          rw [h4 j (by simp [createSwissMatch]; omega)]
          show ((s.matchList ++ [_]).get? j) = s.matchList.get? j
          exact List.get?_append hj
      cases rest.find? (fun p => decide (p ∉ s.opponents home)) with
      | some away => exact key away (rest.erase away)
      | none =>
        cases rest with
        | nil => exact ⟨rfl, rfl, Nat.le_refl _, fun j _ => rfl⟩
        | cons away rest' => exact key away rest'

/-- `setup_round` only appends matches and never touches participants or
scores. -/
theorem setup_round_eq (s : SwissState) :
    setup_round s =
      match pairLoopSwGo (get_players_by_rank s.score s.participants).length
          { s with currentRound := s.currentRound + 1 }
          (get_players_by_rank s.score s.participants) with
      | (s2, none) => ({ s2 with events := s2.events ++ [Event.onStartRound] }, none)
      | e => e := rfl

theorem setup_round_frame (s : SwissState) :
    ((setup_round s).1).participants = s.participants ∧
    ((setup_round s).1).score = s.score ∧
    s.matchList.length ≤ ((setup_round s).1).matchList.length ∧
    (∀ j, j < s.matchList.length →
      ((setup_round s).1).matchList.get? j = s.matchList.get? j) := by
  have h := pairLoopSwGo_frame
    (get_players_by_rank s.score s.participants).length
    { s with currentRound := s.currentRound + 1 }
    (get_players_by_rank s.score s.participants)
  rw [setup_round_eq]
  cases hP : pairLoopSwGo (get_players_by_rank s.score s.participants).length
      { s with currentRound := s.currentRound + 1 }
      (get_players_by_rank s.score s.participants) with
  | mk t e =>
    rw [hP] at h
    cases e with
    | none => exact h
    | some err => exact h

/-- `process_match_result_swiss` preserves participants, scores, and already
created matches. -/
theorem process_frame (s : SwissState) :
    ((process_match_result_swiss s).1).participants = s.participants ∧
    ((process_match_result_swiss s).1).score = s.score ∧
    s.matchList.length ≤ ((process_match_result_swiss s).1).matchList.length ∧
    (∀ j, j < s.matchList.length →
      ((process_match_result_swiss s).1).matchList.get? j = s.matchList.get? j) := by
  rw [process_match_result_swiss]
  by_cases hc : is_round_complete s = true
  · rw [if_pos hc]
    by_cases hr : s.currentRound ≠ s.rounds
    · rw [if_pos hr]
      exact setup_round_frame s
    · rw [if_neg hr]
      exact ⟨rfl, rfl, Nat.le_refl _, fun j _ => rfl⟩
  · rw [if_neg hc]
    exact ⟨rfl, rfl, Nat.le_refl _, fun j _ => rfl⟩

/-- Claim C2, amended: `rank()` orders participants by descending score and
breaks ties by each participant's position in the tournament's stored
participants list — the insertion order, which no operation ever reorders —
rather than by the most recent prior ranking.  Stated as: the ranking is
sorted by descending score; filtering the ranking to any fixed score value
yields exactly the participants list filtered to that value (same members,
same relative order); and neither `report_result` nor `start` changes the
stored participants list. -/
theorem c2_amended_insertion_order_ties :
    (∀ (score : PId → Int) (l : List PId),
      List.Sorted (fun a b => score b ≤ score a) (get_players_by_rank score l)) ∧
    (∀ (score : PId → Int) (c : Int) (l : List PId),
      (get_players_by_rank score l).filter (fun q => decide (score q = c)) =
        l.filter (fun q => decide (score q = c))) ∧
    (∀ (s : SwissState) (i : MId) (w : RVal),
      ((report_result_swiss s i w).1).participants = s.participants) ∧
    (∀ s : SwissState, ((start_swiss s).1).participants = s.participants) := by
  refine ⟨get_players_by_rank_sorted, get_players_by_rank_filter, ?_, ?_⟩
  · intro s i w
    rw [report_result_swiss]
    cases s.matchList.get? i with
    | none => rfl
    | some m =>
      show ((handle_match_result_swiss
        { s with matchList := s.matchList.set i (record_result m w) } i
        (record_result m w)).1).participants = _
      rw [handle_match_result_swiss]
      cases calc_match_points s.score (record_result m w) with
      | mk sc e =>
        cases e with
        | none => exact (process_frame _).1
        | some err => rfl
  · intro s
    exact (setup_round_frame _).1

/-- Claim C9: `get_players_by_rank` is a pure read.  In the embedding the
Python `sorted(...)` call is a pure function of the score table and the
participants list (it builds a fresh list and mutates nothing), so the frame
property proper holds by construction; the theorem states the read-only
content: the returned ranking is a permutation of the stored participants
list — same members, same length, nothing added or dropped — so repeated
calls in the same state agree and leave every later pairing input intact. -/
theorem c9_rank_is_pure_read :
    (∀ (score : PId → Int) (l : List PId), (get_players_by_rank score l).Perm l) ∧
    (∀ (score : PId → Int) (l : List PId),
      (get_players_by_rank score l).length = l.length) ∧
    (∀ (score : PId → Int) (l : List PId) (p : PId),
      p ∈ get_players_by_rank score l ↔ p ∈ l) :=
  ⟨get_players_by_rank_perm,
   fun score l => (get_players_by_rank_perm score l).length_eq,
   fun score l p => (get_players_by_rank_perm score l).mem_iff⟩

/-- Claim C3: one pairing step of `setup_round`'s while-loop, from any loop
state (opponent map `s.opponents`, current queue `home :: rest`).  Whenever
the step creates a match — recorded at index `s.matchList.length` — its away
player either was not yet recorded as an opponent of `home`, or every player
still in the queue had already been recorded as an opponent of `home` (the
`for ... else` fallback: a repeat pairing only when forced).  Every match the
round-based format ever creates arises from such a step. -/
theorem c3_no_repeat_unless_forced (fuel : Nat) (s : SwissState) (home : PId)
    (rest : List PId)
    (hgrow : s.matchList.length <
      ((pairLoopSwGo (fuel + 1) s (home :: rest)).1).matchList.length) :
    ∃ a, ((pairLoopSwGo (fuel + 1) s (home :: rest)).1).matchList.get?
        s.matchList.length = some { home := some home, away := some a } ∧
      (a ∉ s.opponents home ∨ ∀ p ∈ rest, p ∈ s.opponents home) := by
  rw [pairLoopSwGo_cons] at hgrow ⊢
  have key : ∀ (away : PId) (q' : List PId),
      ((pairLoopSwGo fuel (createSwissMatch s home away) q').1).matchList.get?
        s.matchList.length = some { home := some home, away := some away } := by
    intro away q'
    have h := (pairLoopSwGo_frame fuel (createSwissMatch s home away) q').2.2.2
    rw [h s.matchList.length (by simp [createSwissMatch])]
    show (s.matchList ++ [_]).get? s.matchList.length = _
    rw [List.get?_concat_length]
  cases hf : rest.find? (fun p => decide (p ∉ s.opponents home)) with
  | some away =>
    refine ⟨away, key away (rest.erase away), Or.inl ?_⟩
    have := List.find?_some hf
    simpa using this
  | none =>
    cases rest with
    | nil => exact absurd hgrow (lt_irrefl _)
    | cons away rest' =>
      refine ⟨away, key away rest', Or.inr ?_⟩
      intro p hp
      have := List.find?_eq_none.mp hf p hp
      simpa using this

/-- Witness for C3: a fresh two-player queue pairs 1 against 2 (no repeat). -/
theorem c3_no_repeat_unless_forced_witness :
    ∃ a, ((pairLoopSwGo 2 (mkSwiss 1 []) [1, 2]).1).matchList.get? 0 =
        some { home := some 1, away := some a } ∧
      (a ∉ (mkSwiss 1 []).opponents 1 ∨ ∀ p ∈ [2], p ∈ (mkSwiss 1 []).opponents 1) :=
  c3_no_repeat_unless_forced 1 (mkSwiss 1 []) 1 [2] (by decide)

/-- Claim C1, amended: `report_result` performs no state check at all, so a
second report on an already-Completed match is accepted: it overwrites the
match's winner and loser and runs the scoring and advancement path again,
adding the full win value of 3 points to the reported winner's score a second
time, instead of failing. -/
theorem handle_match_result_swiss_eq (s : SwissState) (i : MId) (m : MatchD) :
    handle_match_result_swiss s i m =
      match calc_match_points s.score m with
      | (sc, some e) => ({ s with score := sc }, some e)
      | (sc, none) =>
        process_match_result_swiss
          { s with score := sc, events := s.events ++ [Event.onMatchComplete i] } := rfl

theorem c1_amended_rereport_rescores (s : SwissState) (i : MId) (m : MatchD)
    (h : PId) (hm : s.matchList.get? i = some m) (hc : m.winner.isSome = true)
    (hh : m.home = some h) :
    ((report_result_swiss s i (.player h)).1).score h = s.score h + 3 ∧
    ((report_result_swiss s i (.player h)).1).matchList.get? i =
      some (record_result m (.player h)) ∧
    (record_result m (.player h)).winner = some (.player h) := by
  have hlen : i < s.matchList.length := (List.get?_eq_some.mp hm).1
  have hrec : record_result m (.player h) =
      { m with winner := some (.player h), loser := some (.slot m.away) } := by
    rw [record_result, hh]
    simp
  cases haway : m.away with
  | none =>
    have hcalc : calc_match_points s.score (record_result m (.player h)) =
        (bump s.score h 3, some Err.noneAttr) := by
      rw [hrec]
      simp [calc_match_points, haway]
    have hrep : report_result_swiss s i (.player h) =
        ({ s with matchList := s.matchList.set i (record_result m (.player h)),
                  score := bump s.score h 3 }, some Err.noneAttr) := by
      rw [report_result_swiss, hm]
      show handle_match_result_swiss
          { s with matchList := s.matchList.set i (record_result m (.player h)) } i
          (record_result m (.player h)) = _
      rw [handle_match_result_swiss_eq,
        show ({ s with matchList := s.matchList.set i (record_result m (.player h)) } :
          SwissState).score = s.score from rfl, hcalc]
    rw [hrep]
    refine ⟨?_, ?_, by rw [hrec]⟩
    · show bump s.score h 3 h = s.score h + 3
      simp [bump]
    · show (s.matchList.set i (record_result m (.player h))).get? i = _
      exact List.get?_set_eq_of_lt _ hlen
  | some a =>
    have hcalc : calc_match_points s.score (record_result m (.player h)) =
        (bump (bump s.score h 3) a 0, none) := by
      rw [hrec]
      simp [calc_match_points, haway]
    have hrep : report_result_swiss s i (.player h) =
        process_match_result_swiss
          { s with matchList := s.matchList.set i (record_result m (.player h)),
                   score := bump (bump s.score h 3) a 0,
                   events := s.events ++ [Event.onMatchComplete i] } := by
      rw [report_result_swiss, hm]
      show handle_match_result_swiss
          { s with matchList := s.matchList.set i (record_result m (.player h)) } i
          (record_result m (.player h)) = _
      rw [handle_match_result_swiss_eq,
        show ({ s with matchList := s.matchList.set i (record_result m (.player h)) } :
          SwissState).score = s.score from rfl, hcalc]
    rw [hrep]
    have hfr := process_frame
      { s with matchList := s.matchList.set i (record_result m (.player h)),
               score := bump (bump s.score h 3) a 0,
               events := s.events ++ [Event.onMatchComplete i] }
    refine ⟨?_, ?_, by rw [hrec]⟩
    · rw [hfr.2.1]
      show bump (bump s.score h 3) a 0 h = s.score h + 3
      by_cases hha : h = a
      · simp [bump, hha]
      · simp [bump, hha]
    · rw [hfr.2.2.2 i (by simpa using hlen)]
      show (s.matchList.set i (record_result m (.player h))).get? i = _
      exact List.get?_set_eq_of_lt _ hlen

/-- Witness for C1's amended statement: the two-player, one-round tournament
after its only match was already reported once. -/
theorem c1_amended_rereport_rescores_witness :
    (((report_result_swiss (report_result_swiss (start_swiss (mkSwiss 1 [1, 2])).1
        0 (.player 1)).1 0 (.player 1)).1).score 1 =
      ((report_result_swiss (start_swiss (mkSwiss 1 [1, 2])).1 0 (.player 1)).1).score 1
        + 3) ∧
    ((report_result_swiss (report_result_swiss (start_swiss (mkSwiss 1 [1, 2])).1
        0 (.player 1)).1 0 (.player 1)).1).matchList.get? 0 =
      some (record_result
        { home := some 1, away := some 2, winner := some (.player 1),
          loser := some (.slot (some 2)) } (.player 1)) ∧
    (record_result
        { home := some 1, away := some 2, winner := some (.player 1),
          loser := some (.slot (some 2)) } (.player 1)).winner =
      some (.player 1) :=
  c1_amended_rereport_rescores
    (report_result_swiss (start_swiss (mkSwiss 1 [1, 2])).1 0 (.player 1)).1 0
    { home := some 1, away := some 2, winner := some (.player 1),
      loser := some (.slot (some 2)) } 1 rfl rfl rfl

/-- On any queue of odd length (with sufficient fuel, as always supplied), the
pairing loop ends in the IndexError of popping the emptied deque, after
creating exactly one match per completed iteration. -/
theorem pairLoopSwGo_odd (n : Nat) :
    ∀ (fuel : Nat) (s : SwissState) (q : List PId), q.length = 2 * n + 1 →
    q.length ≤ fuel →
    (pairLoopSwGo fuel s q).2 = some .popFromEmpty ∧
    ((pairLoopSwGo fuel s q).1).matchList.length = s.matchList.length + n := by
  induction n with
  | zero =>
    intro fuel s q hq hf
    match q, hq with
    | [home], _ =>
      match fuel, hf with
      | fuel + 1, _ =>
        rw [pairLoopSwGo_cons]
        exact ⟨rfl, rfl⟩
  | succ n ih =>
    intro fuel s q hq hf
    match q, hq with
    | home :: rest, hq =>
      have hrest : rest.length = 2 * n + 2 := by
        simp only [List.length_cons] at hq
        omega
      match fuel, hf with
      | fuel + 1, hf =>
        rw [pairLoopSwGo_cons]
        have key : ∀ (away : PId) (q' : List PId), q'.length = 2 * n + 1 →
            (pairLoopSwGo fuel (createSwissMatch s home away) q').2 =
              some .popFromEmpty ∧
            ((pairLoopSwGo fuel (createSwissMatch s home away) q').1).matchList.length =
              s.matchList.length + (n + 1) := by
          intro away q' hq'
          have hlen : (createSwissMatch s home away).matchList.length =
              s.matchList.length + 1 := by
            simp [createSwissMatch]
          obtain ⟨e1, e2⟩ := ih fuel (createSwissMatch s home away) q' hq'
            (by simp only [List.length_cons] at hf; omega)
          exact ⟨e1, by rw [e2, hlen]; omega⟩
        cases hfind : rest.find? (fun p => decide (p ∉ s.opponents home)) with
        | some away =>
          refine key away (rest.erase away) ?_
          have := List.length_erase_of_mem (List.mem_of_find?_eq_some hfind)
          omega
        | none =>
          match rest, hrest with
          | away :: rest', hrest =>
            refine key away rest' ?_
            simp only [List.length_cons] at hrest
            omega

/-- Claim C8, amended: an odd participant count is not validated anywhere:
construction succeeds for any count, and `start()` then fails fatally — but
with an IndexError from popping the emptied pairing deque during round setup,
after `⌊N/2⌋` matches have already been created and announced, not with a
configuration-error rejection ahead of any pairing. -/
theorem c8_amended_odd_count_crashes_mid_pairing (r : Nat) (ps : List PId)
    (hodd : ps.length % 2 = 1) :
    (start_swiss (mkSwiss r ps)).2 = some .popFromEmpty ∧
    ((start_swiss (mkSwiss r ps)).1).matchList.length = ps.length / 2 := by
  have hqlen : (get_players_by_rank
      (fun p => if p ∈ ps then 0 else (0 : Int)) ps).length = ps.length :=
    (get_players_by_rank_perm _ ps).length_eq
  have h := pairLoopSwGo_odd (ps.length / 2)
    (get_players_by_rank (fun p => if p ∈ ps then 0 else (0 : Int)) ps).length
    { mkSwiss r ps with
      numPlayers := ps.length
      score := fun p => if p ∈ ps then 0 else (0 : Int)
      events := [Event.onStart]
      matchesPerRound := ps.length / 2
      currentRound := 1 }
    (get_players_by_rank (fun p => if p ∈ ps then 0 else (0 : Int)) ps)
    (by rw [hqlen]; omega) (Nat.le_refl _)
  have hkey : start_swiss (mkSwiss r ps) =
      pairLoopSwGo
        (get_players_by_rank (fun p => if p ∈ ps then 0 else (0 : Int)) ps).length
        { mkSwiss r ps with
          numPlayers := ps.length
          score := fun p => if p ∈ ps then 0 else (0 : Int)
          events := [Event.onStart]
          matchesPerRound := ps.length / 2
          currentRound := 1 }
        (get_players_by_rank (fun p => if p ∈ ps then 0 else (0 : Int)) ps) := by
    show (match pairLoopSwGo
          (get_players_by_rank (fun p => if p ∈ ps then 0 else (0 : Int)) ps).length
          { mkSwiss r ps with
            numPlayers := ps.length
            score := fun p => if p ∈ ps then 0 else (0 : Int)
            events := [Event.onStart]
            matchesPerRound := ps.length / 2
            currentRound := 1 }
          (get_players_by_rank (fun p => if p ∈ ps then 0 else (0 : Int)) ps) with
        | (s2, none) => ({ s2 with events := s2.events ++ [Event.onStartRound] }, none)
        | e => e) = _
    cases hP : pairLoopSwGo
        (get_players_by_rank (fun p => if p ∈ ps then 0 else (0 : Int)) ps).length
        { mkSwiss r ps with
          numPlayers := ps.length
          score := fun p => if p ∈ ps then 0 else (0 : Int)
          events := [Event.onStart]
          matchesPerRound := ps.length / 2
          currentRound := 1 }
        (get_players_by_rank (fun p => if p ∈ ps then 0 else (0 : Int)) ps) with
    | mk t e2 =>
      rw [hP] at h
      cases e2 with
      | none => exact absurd h.1 (by simp)
      | some err => rfl
  rw [hkey]
  refine ⟨h.1, ?_⟩
  rw [h.2]
  show 0 + ps.length / 2 = ps.length / 2
  omega

/-- Witness for C8's amended statement at three participants, one round. -/
theorem c8_amended_odd_count_crashes_mid_pairing_witness :
    (start_swiss (mkSwiss 1 [1, 2, 3])).2 = some .popFromEmpty ∧
    ((start_swiss (mkSwiss 1 [1, 2, 3])).1).matchList.length = 3 / 2 :=
  c8_amended_odd_count_crashes_mid_pairing 1 [1, 2, 3] rfl

theorem process_match_result_elim_eq (s : ElimState) (i : MId) :
    process_match_result_elim s i =
      match alookup s.bracket i with
      | none => ({ s with events := s.events ++ [.onComplete] }, none)
      | some p =>
        match s.arena.get? i with
        | none => (s, some .keyError)
        | some m =>
          match m.winner with
          | some (.player w) =>
            let s1 := { s with
              history := pushHistory s.history w p
              currentMatch := setCur s.currentMatch w p }
            match alookup s1.sources p with
            | none => (s1, some .keyError)
            | some (hsrc, _asrc) =>
              match s1.arena.get? p with
              | none => (s1, some .keyError)
              | some pm =>
                let pm' := if i = hsrc then { pm with home := some w }
                           else { pm with away := some w }
                let s2 := { s1 with arena := s1.arena.set p pm' }
                if pm'.active then
                  ({ s2 with events := s2.events ++ [.onMatchReady p] }, none)
                else (s2, none)
          | _ => (s, some .noneAttr) := rfl

/-- Claim C6: when a completed match is processed by the elimination format's
advancement, either it has no entry in the parent-lookup map — then it was the
final and `on_complete` fires with no other state change — or its winner is
assigned into exactly the parent slot (home when the match is the provenance
pair's home source, away otherwise), every other match is untouched, and
`on_match_ready` fires for the parent exactly when the parent's two slots are
then both filled. -/
theorem c6_winner_advancement (s : ElimState) (i : MId) :
    (alookup s.bracket i = none →
      process_match_result_elim s i =
        ({ s with events := s.events ++ [Event.onComplete] }, none)) ∧
    (∀ p m w hsrc asrc pm,
      alookup s.bracket i = some p →
      s.arena.get? i = some m →
      m.winner = some (.player w) →
      alookup s.sources p = some (hsrc, asrc) →
      s.arena.get? p = some pm →
      pm.winner = none →
      (process_match_result_elim s i).2 = none ∧
      ((process_match_result_elim s i).1).arena.get? p =
        some (if i = hsrc then { pm with home := some w }
              else { pm with away := some w }) ∧
      (∀ j, ¬j = p → ((process_match_result_elim s i).1).arena.get? j =
        s.arena.get? j) ∧
      ((process_match_result_elim s i).1).events =
        (if (if i = hsrc then { pm with home := some w }
             else { pm with away := some w }).active
         then s.events ++ [Event.onMatchReady p] else s.events) ∧
      ((if i = hsrc then { pm with home := some w }
        else { pm with away := some w }).active = true ↔
        ((if i = hsrc then { pm with home := some w }
          else { pm with away := some w }).home.isSome = true ∧
         (if i = hsrc then { pm with home := some w }
          else { pm with away := some w }).away.isSome = true))) := by
  constructor
  · intro hbr
    rw [process_match_result_elim_eq, hbr]
  · intro p m w hsrc asrc pm hbr hm hw hso hpm hwin
    rw [process_match_result_elim_eq]
    simp only [hbr, hm, hw, hso, hpm]
    have hwin' : (if i = hsrc then { pm with home := some w }
        else { pm with away := some w }).winner = none := by
      by_cases hih : i = hsrc
      · simp [hih, hwin]
      · simp [hih, hwin]
    have hplen : p < s.arena.length := (List.get?_eq_some.mp hpm).1
    by_cases hact : (if i = hsrc then { pm with home := some w }
        else { pm with away := some w }).active = true
    · rw [if_pos hact]
      refine ⟨rfl, ?_, ?_, by rw [if_pos hact], ?_⟩
      · show (s.arena.set p _).get? p = _
        exact List.get?_set_eq_of_lt _ hplen
      · intro j hj
        show (s.arena.set p _).get? j = _
        rw [List.get?_set_ne _ _ (fun hh => hj hh.symm)]
      · rw [MatchD.active, hwin'] at hact
        simp only [Option.isNone_none, Bool.and_true] at hact
        constructor
        · intro _
          exact ⟨(Bool.and_eq_true_iff.mp hact).1, (Bool.and_eq_true_iff.mp hact).2⟩
        · intro _
          rw [MatchD.active, hwin']
          simp [hact]
    · rw [if_neg hact]
      refine ⟨rfl, ?_, ?_, by rw [if_neg hact], ?_⟩
      · show (s.arena.set p _).get? p = _
        exact List.get?_set_eq_of_lt _ hplen
      · intro j hj
        show (s.arena.set p _).get? j = _
        rw [List.get?_set_ne _ _ (fun hh => hj hh.symm)]
      · rw [MatchD.active, hwin'] at hact ⊢
        simp only [Option.isNone_none, Bool.and_true] at hact ⊢
        constructor
        · intro h
          exact absurd h hact
        · intro ⟨h1, h2⟩
          exact absurd (by rw [h1, h2]; rfl) hact

/-- Witness for C6: in `elimDemoState`, processing completed leaf 0 assigns
winner 1 into the final's home slot (leaf 0 is the provenance home source)
and does not fire `on_match_ready` (the away slot is still empty); processing
an id absent from the bracket fires `on_complete`. -/
theorem c6_winner_advancement_witness :
    ((process_match_result_elim elimDemoState 5).1.events =
        elimDemoState.events ++ [Event.onComplete] ∧
      (process_match_result_elim elimDemoState 5).2 = none) ∧
    ((process_match_result_elim elimDemoState 0).2 = none ∧
      ((process_match_result_elim elimDemoState 0).1).arena.get? 2 =
        some (if 0 = 0 then { ({} : MatchD) with home := some 1 }
              else { ({} : MatchD) with away := some 1 })) := by
  constructor
  · have h := (c6_winner_advancement elimDemoState 5).1 rfl
    rw [h]
    exact ⟨rfl, rfl⟩
  · have h := (c6_winner_advancement elimDemoState 0).2 2
      { home := some 1, away := some 2, winner := some (.player 1),
        loser := some (.slot (some 2)) } 1 0 1 {} rfl rfl rfl rfl rfl rfl
    exact ⟨h.1, h.2.1⟩

theorem ceilLog2Go_spec (n : Nat) :
    ∀ (fuel k : Nat), n ≤ 2 ^ (k + fuel) → (∀ j, j < k → ¬n ≤ 2 ^ j) →
    n ≤ 2 ^ ceilLog2Go n fuel k ∧ ∀ j, n ≤ 2 ^ j → ceilLog2Go n fuel k ≤ j := by
  intro fuel
  induction fuel with
  | zero =>
    intro k hk hmin
    refine ⟨by simpa using hk, ?_⟩
    intro j hj
    by_contra hlt
    exact hmin j (by simpa [ceilLog2Go] using Nat.lt_of_not_le hlt) hj
  | succ fuel ih =>
    intro k hk hmin
    rw [ceilLog2Go]
    by_cases hc : n ≤ 2 ^ k
    · rw [if_pos hc]
      refine ⟨hc, ?_⟩
      intro j hj
      by_contra hlt
      exact hmin j (Nat.lt_of_not_le hlt) hj
    · rw [if_neg hc]
      refine ih (k + 1) (by rw [show k + 1 + fuel = k + (fuel + 1) from by omega]; exact hk) ?_
      intro j hj
      rcases Nat.lt_or_ge j k with hjk | hjk
      · exact hmin j hjk
      · have : j = k := by omega
        rw [this]
        exact hc

/-- `ceilLog2 n` is exactly the ceiling of log₂: `2 ^ ceilLog2 n` is the
smallest power of two at least `n`. -/
theorem ceilLog2_spec (n : Nat) (hn : 1 ≤ n) :
    n ≤ 2 ^ ceilLog2 n ∧ ∀ j, n ≤ 2 ^ j → ceilLog2 n ≤ j := by
  refine ceilLog2Go_spec n n 0 ?_ (by omega)
  simpa using Nat.le_of_lt (Nat.lt_two_pow n)

theorem ceilLog2_pos (n : Nat) (hn : 2 ≤ n) : 1 ≤ ceilLog2 n := by
  by_contra h
  have h0 : ceilLog2 n = 0 := by omega
  have := (ceilLog2_spec n (by omega)).1
  rw [h0] at this
  simp at this
  omega

/-- For at least two participants, strictly more than half the field is real:
`2 ^ (ceilLog2 n) / 2 < n`. -/
theorem half_field_lt (n : Nat) (hn : 2 ≤ n) : 2 ^ ceilLog2 n / 2 < n := by
  have h1 := ceilLog2_pos n hn
  by_contra hle
  have hle' : n ≤ 2 ^ ceilLog2 n / 2 := Nat.le_of_not_lt hle
  have hdiv : 2 ^ ceilLog2 n / 2 = 2 ^ (ceilLog2 n - 1) := by
    rcases Nat.exists_eq_add_of_le h1 with ⟨k, hk⟩
    rw [show ceilLog2 n = k + 1 from by omega]
    rw [Nat.pow_succ]
    simp
  rw [hdiv] at hle'
  have := (ceilLog2_spec n (by omega)).2 _ hle'
  omega

theorem alookup_eq_some_mem {β : Type} (l : List (MId × β)) (k : MId) (v : β)
    (h : alookup l k = some v) : (k, v) ∈ l := by
  induction l with
  | nil => exact absurd h (by simp [alookup])
  | cons kv rest ih =>
    obtain ⟨k', v'⟩ := kv
    rw [alookup] at h
    by_cases hk : k = k'
    · rw [if_pos hk] at h
      obtain rfl : v' = v := by simpa using h
      subst hk
      exact List.mem_cons_self _ _
    · rw [if_neg hk] at h
      exact List.mem_cons_of_mem _ (ih h)

theorem alookup_isSome_iff {β : Type} (l : List (MId × β)) (k : MId) :
    (alookup l k).isSome = true ↔ k ∈ l.map Prod.fst := by
  induction l with
  | nil => simp [alookup]
  | cons kv rest ih =>
    obtain ⟨k', v'⟩ := kv
    rw [alookup]
    by_cases hk : k = k'
    · rw [if_pos hk]
      simp [hk]
    · rw [if_neg hk]
      simp [hk, ih]

theorem alookup_eq_none_iff {β : Type} (l : List (MId × β)) (k : MId) :
    alookup l k = none ↔ ¬k ∈ l.map Prod.fst := by
  rw [← alookup_isSome_iff]
  cases alookup l k <;> simp

theorem alookup_of_mem_nodup {β : Type} (l : List (MId × β)) (k : MId) (v : β)
    (hmem : (k, v) ∈ l) (hnd : (l.map Prod.fst).Nodup) : alookup l k = some v := by
  induction l with
  | nil => exact absurd hmem (by simp)
  | cons kv rest ih =>
    obtain ⟨k', v'⟩ := kv
    rw [List.map_cons, List.nodup_cons] at hnd
    rcases List.mem_cons.mp hmem with heq | hmem'
    · obtain ⟨rfl, rfl⟩ := Prod.mk.injEq .. ▸ heq
      simp_all [alookup]
    · have hne : ¬k = k' := by
        rintro rfl
        exact hnd.1 (by simpa using List.mem_map_of_mem Prod.fst hmem')
      rw [alookup, if_neg hne]
      exact ih hmem' hnd.2

theorem getD_last_of_getLast? (l : List PId) (a : PId) (h : l.getLast? = some a) :
    l.getD (l.length - 1) 0 = a := by
  rw [List.getLast?_eq_getElem?] at h
  rw [List.getD_eq_getElem?_getD, h]
  rfl

theorem getD_dropLast (l : List PId) (i : Nat) (h : i < l.length - 1) :
    l.dropLast.getD i 0 = l.getD i 0 := by
  rw [List.getD_eq_getElem?_getD, List.getD_eq_getElem?_getD]
  rw [List.getElem?_dropLast]
  rw [if_pos h]

theorem seedLoopGo_ok (fuel : Nat) :
    ∀ (s : ElimState) (q : List PId), q.length ≤ fuel → q.length % 2 = 0 →
    (seedLoopGo fuel s q).2 = none ∧
    ((seedLoopGo fuel s q).1).arena.length = s.arena.length + q.length / 2 ∧
    (∀ j, j < s.arena.length →
      ((seedLoopGo fuel s q).1).arena.get? j = s.arena.get? j) ∧
    (∀ i, i < q.length / 2 →
      ((seedLoopGo fuel s q).1).arena.get? (s.arena.length + i) =
        some { home := some (q.getD i 0), away := some (q.getD (q.length - 1 - i) 0),
               winner := none, loser := none }) ∧
    ((seedLoopGo fuel s q).1).matchList = s.matchList ∧
    ((seedLoopGo fuel s q).1).bracket = s.bracket ∧
    ((seedLoopGo fuel s q).1).sources = s.sources ∧
    ((seedLoopGo fuel s q).1).score = s.score ∧
    ((seedLoopGo fuel s q).1).participants = s.participants ∧
    ((seedLoopGo fuel s q).1).rounds = s.rounds ∧
    ((seedLoopGo fuel s q).1).fieldSize = s.fieldSize := by
  induction fuel with
  | zero =>
    intro s q hf he
    match q, hf with
    | [], _ =>
      exact ⟨rfl, by simp [seedLoopGo], fun j _ => rfl, fun i hi => absurd hi (by simp),
        rfl, rfl, rfl, rfl, rfl, rfl, rfl⟩
  | succ fuel ih =>
    intro s q hf he
    cases q with
    | nil =>
      exact ⟨rfl, by simp [seedLoopGo], fun j _ => rfl, fun i hi => absurd hi (by simp),
        rfl, rfl, rfl, rfl, rfl, rfl, rfl⟩
    | cons h rest =>
      have hrest : rest ≠ [] := by
        intro hr
        rw [hr] at he
        simp at he
      cases hlast : rest.getLast? with
      | none => exact absurd (List.getLast?_eq_none_iff.mp hlast) hrest
      | some a =>
        show (seedLoopGo (fuel + 1) s (h :: rest)).2 = none ∧ _
        have hstep : seedLoopGo (fuel + 1) s (h :: rest) =
            seedLoopGo fuel (createLeaf s h a) rest.dropLast := by
          rw [seedLoopGo, hlast]
        rw [hstep]
        have hql : rest.dropLast.length = rest.length - 1 := by
          simp [List.length_dropLast]
        have hrl : 1 ≤ rest.length := by
          cases rest with
          | nil => exact absurd rfl hrest
          | cons x xs => simp
        have hqlen : (h :: rest).length = rest.length + 1 := by simp
        obtain ⟨e0, e1, e2, e3, e4, e5, e6, e7, e8, e9, e10⟩ :=
          ih (createLeaf s h a) rest.dropLast
            (by simp only [List.length_cons] at hf; omega)
            (by simp only [List.length_cons] at he; omega)
        have harena : (createLeaf s h a).arena = s.arena ++
            [{ home := some h, away := some a, winner := none, loser := none }] := rfl
        have hlen1 : (createLeaf s h a).arena.length = s.arena.length + 1 := by
          rw [harena]
          simp
        refine ⟨e0, ?_, ?_, ?_, e4, e5, e6, e7, e8, e9, e10⟩
        · rw [e1, hlen1, hql]
          simp only [List.length_cons]
          omega
        · intro j hj
          rw [e2 j (by omega)]
          rw [harena, List.get?_append hj]
        · intro i hi
          simp only [List.length_cons] at hi
          cases i with
          | zero =>
            rw [Nat.add_zero, e2 s.arena.length (by omega)]
            have : (s.arena ++
                [({ home := some h, away := some a, winner := none,
                    loser := none } : MatchD)]).get? s.arena.length =
                some { home := some h, away := some a, winner := none, loser := none } :=
              List.get?_concat_length _ _
            rw [harena, this]
            have hgd0 : (h :: rest).getD 0 0 = h := rfl
            have hgdl : (h :: rest).getD ((h :: rest).length - 1 - 0) 0 = a := by
              simp only [List.length_cons, Nat.add_sub_cancel, Nat.sub_zero]
              rw [show rest.length = rest.length - 1 + 1 from by omega]
              rw [List.getD_cons_succ]
              exact getD_last_of_getLast? rest a hlast
            rw [hgd0]
            rw [show (h :: rest).length - 1 - 0 = rest.length - 1 + 1 from by
              simp only [List.length_cons]; omega] at hgdl ⊢
            rw [hgdl]
          | succ i =>
            have hi' : i < rest.dropLast.length / 2 := by
              rw [hql]
              omega
            have := e3 i hi'
            rw [hlen1] at this
            rw [show s.arena.length + (i + 1) = s.arena.length + 1 + i from by omega]
            rw [this]
            have hd1 : rest.dropLast.getD i 0 = (h :: rest).getD (i + 1) 0 := by
              rw [getD_dropLast rest i (by rw [hql] at hi'; omega)]
              rw [List.getD_cons_succ]
            have hd2 : rest.dropLast.getD (rest.dropLast.length - 1 - i) 0 =
                (h :: rest).getD ((h :: rest).length - 1 - (i + 1)) 0 := by
              rw [getD_dropLast rest _ (by rw [hql] at hi' ⊢; omega)]
              rw [show (h :: rest).length - 1 - (i + 1) = rest.dropLast.length - 1 - i + 1
                from by simp only [List.length_cons]; rw [hql]; omega]
              rw [List.getD_cons_succ]
            rw [hd1, hd2]


theorem bracketLoopGo_ok (fuel : Nat) :
    ∀ (s : ElimState) (q : List MId), q.length ≤ fuel → ¬q = [] →
    (∀ x ∈ q, x < s.arena.length) →
    (bracketLoopGo fuel s q).2 = none ∧
    ((bracketLoopGo fuel s q).1).arena.length = s.arena.length + (q.length - 1) ∧
    (∀ j, j < s.arena.length →
      ((bracketLoopGo fuel s q).1).arena.get? j = s.arena.get? j) ∧
    (∀ j, s.arena.length ≤ j → j < s.arena.length + (q.length - 1) →
      ((bracketLoopGo fuel s q).1).arena.get? j = some {}) ∧
    ((bracketLoopGo fuel s q).1).matchList =
      s.matchList ++ q ++ List.range' s.arena.length (q.length - 1) ∧
    (∃ nbr nso fm,
      ((bracketLoopGo fuel s q).1).bracket = s.bracket ++ nbr ∧
      ((bracketLoopGo fuel s q).1).sources = s.sources ++ nso ∧
      q ++ List.range' s.arena.length (q.length - 1) = nbr.map Prod.fst ++ [fm] ∧
      (∀ cp ∈ nbr, s.arena.length ≤ cp.2 ∧ cp.2 < s.arena.length + (q.length - 1)) ∧
      nso.map (fun x => x.1) = List.range' s.arena.length (q.length - 1) ∧
      (∀ cp ∈ nbr, ∃ x y, (cp.2, x, y) ∈ nso ∧ (cp.1 = x ∨ cp.1 = y))) ∧
    ((bracketLoopGo fuel s q).1).score = s.score ∧
    ((bracketLoopGo fuel s q).1).participants = s.participants ∧
    ((bracketLoopGo fuel s q).1).rounds = s.rounds ∧
    ((bracketLoopGo fuel s q).1).fieldSize = s.fieldSize := by
  induction fuel with
  | zero =>
    intro s q hf hne _
    match q, hf with
    | [], _ => exact absurd rfl hne
  | succ fuel ih =>
    intro s q hf hne hbound
    match q with
    | [] => exact absurd rfl hne
    | [m] =>
      refine ⟨rfl, by simp [bracketLoopGo], fun j _ => rfl,
        fun j h1 h2 => by simp only [List.length_cons, List.length_nil] at h2; omega,
        by simp [bracketLoopGo], ⟨[], [], m, by simp [bracketLoopGo],
          by simp [bracketLoopGo], by simp, by simp, by simp, by simp⟩,
        rfl, rfl, rfl, rfl⟩
    | top :: bot :: rest =>
      have hstep : bracketLoopGo (fuel + 1) s (top :: bot :: rest) =
          bracketLoopGo fuel
            { s with
              arena := s.arena ++ [{}]
              bracket := s.bracket ++ [(top, s.arena.length), (bot, s.arena.length)]
              sources := s.sources ++ [(s.arena.length, top, bot)]
              matchList := s.matchList ++ [top, bot] }
            (rest ++ [s.arena.length]) := rfl
      rw [hstep]
      set s' : ElimState :=
        { s with
          arena := s.arena ++ [{}]
          bracket := s.bracket ++ [(top, s.arena.length), (bot, s.arena.length)]
          sources := s.sources ++ [(s.arena.length, top, bot)]
          matchList := s.matchList ++ [top, bot] } with hs'
      have hA : s'.arena.length = s.arena.length + 1 := by rw [hs']; simp
      have hAg : ∀ j, j < s.arena.length → s'.arena.get? j = s.arena.get? j := by
        intro j hj
        rw [hs']
        exact List.get?_append hj
      have hAe : s'.arena.get? s.arena.length = some {} := by
        rw [hs']
        exact List.get?_concat_length _ _
      have hml : s'.matchList = s.matchList ++ [top, bot] := by rw [hs']
      have hbr : s'.bracket =
          s.bracket ++ [(top, s.arena.length), (bot, s.arena.length)] := by rw [hs']
      have hso : s'.sources = s.sources ++ [(s.arena.length, top, bot)] := by rw [hs']
      have hsc : s'.score = s.score := by rw [hs']
      have hpa : s'.participants = s.participants := by rw [hs']
      have hro : s'.rounds = s.rounds := by rw [hs']
      have hfi : s'.fieldSize = s.fieldSize := by rw [hs']
      clear_value s'
      have hq'len : (rest ++ [s.arena.length]).length = rest.length + 1 := by simp
      have hql : (top :: bot :: rest).length = rest.length + 2 := by
        simp only [List.length_cons]
      have hbound' : ∀ x ∈ rest ++ [s.arena.length], x < s'.arena.length := by
        intro x hx
        rw [hA]
        rcases List.mem_append.mp hx with hx2 | hx2
        · exact Nat.lt_succ_of_lt
            (hbound x (List.mem_cons_of_mem _ (List.mem_cons_of_mem _ hx2)))
        · simp only [List.mem_singleton] at hx2
          exact hx2 ▸ Nat.lt_succ_self _
      obtain ⟨e0, e1, e2, e3, e4, e5, e6, e7, e8, e9⟩ :=
        ih s' (rest ++ [s.arena.length])
          (by simp only [List.length_cons] at hf; rw [hq'len]; omega)
          (by simp)
          hbound'
      rw [hq'len] at e1 e3 e4 e5
      rw [hA] at e1 e2 e3 e4 e5
      simp only [Nat.add_sub_cancel] at e1 e3 e4 e5
      have hrange : List.range' s.arena.length (rest.length + 1) =
          s.arena.length :: List.range' (s.arena.length + 1) rest.length := rfl
      refine ⟨e0, ?_, ?_, ?_, ?_, ?_, ?_, ?_, ?_, ?_⟩
      · rw [e1, hql]
        omega
      · intro j hj
        rw [e2 j (by omega), hAg j hj]
      · intro j h1 h2
        rw [hql] at h2
        by_cases hje : j = s.arena.length
        · subst hje
          rw [e2 _ (by omega), hAe]
        · exact e3 j (by omega) (by omega)
      · rw [e4, hql, hml,
          show rest.length + 2 - 1 = rest.length + 1 from rfl, hrange]
        simp
      · obtain ⟨nbr, nso, fm, f1, f2, f3, f4, f5, f6⟩ := e5
        refine ⟨(top, s.arena.length) :: (bot, s.arena.length) :: nbr,
          (s.arena.length, top, bot) :: nso, fm, ?_, ?_, ?_, ?_, ?_, ?_⟩
        · rw [f1, hbr]
          simp
        · rw [f2, hso]
          simp
        · rw [hql, show rest.length + 2 - 1 = rest.length + 1 from rfl]
          simp only [hrange, List.map_cons]
          rw [show (top :: bot :: rest) ++ s.arena.length ::
              List.range' (s.arena.length + 1) rest.length =
            top :: bot :: ((rest ++ [s.arena.length]) ++
              List.range' (s.arena.length + 1) rest.length) from by simp]
          rw [f3]
          rfl
        · intro cp hcp
          rw [hql]
          rcases List.mem_cons.mp hcp with rfl | hcp
          · refine ⟨Nat.le_refl _, ?_⟩
            show s.arena.length < s.arena.length + (rest.length + 2 - 1)
            omega
          rcases List.mem_cons.mp hcp with rfl | hcp
          · refine ⟨Nat.le_refl _, ?_⟩
            show s.arena.length < s.arena.length + (rest.length + 2 - 1)
            omega
          · obtain ⟨hb1, hb2⟩ := f4 cp hcp
            refine ⟨Nat.le_of_succ_le hb1, ?_⟩
            have harith : s.arena.length + 1 + rest.length =
                s.arena.length + (rest.length + 2 - 1) := by
              clear hb1 hb2 hcp
              omega
            exact harith ▸ hb2
        · rw [hql, show rest.length + 2 - 1 = rest.length + 1 from rfl]
          simp only [hrange, List.map_cons]
          rw [f5]
        · intro cp hcp
          rcases List.mem_cons.mp hcp with rfl | hcp
          · exact ⟨top, bot, List.mem_cons_self _ _, Or.inl rfl⟩
          rcases List.mem_cons.mp hcp with rfl | hcp
          · exact ⟨top, bot, List.mem_cons_self _ _, Or.inr rfl⟩
          · obtain ⟨x, y, hxy, hor⟩ := f6 cp hcp
            exact ⟨x, y, List.mem_cons_of_mem _ hxy, hor⟩
      · rw [e6, hsc]
      · rw [e7, hpa]
      · rw [e8, hro]
      · rw [e9, hfi]

theorem report_result_elim_eq (s : ElimState) (i : MId) (w : RVal) :
    report_result_elim s i w =
      match s.arena.get? i with
      | none => (s, some Err.keyError)
      | some m =>
        handle_match_result_elim { s with arena := s.arena.set i (record_result m w) }
          i (record_result m w) := rfl

theorem handle_match_result_elim_eq (s : ElimState) (i : MId) (m : MatchD) :
    handle_match_result_elim s i m =
      match calc_match_points s.score m with
      | (sc, some e) => ({ s with score := sc }, some e)
      | (sc, none) =>
        process_match_result_elim
          { s with score := sc, events := s.events ++ [Event.onMatchComplete i] } i := rfl

theorem byeLoop_cons (s : ElimState) (i : MId) (rest : List MId) :
    byeLoop s (i :: rest) =
      match s.arena.get? i with
      | none => (s, some Err.keyError)
      | some m =>
        if m.away = some BY then
          match report_result_elim s i
              (match m.home with | none => RVal.null | some h => RVal.player h) with
          | (s1, none) => byeLoop s1 rest
          | e => e
        else byeLoop s rest := rfl

theorem getD_pad_left (ps : List PId) (c j : Nat) (h : j < ps.length) :
    (ps ++ List.replicate c BY).getD j 0 = ps.getD j 0 := by
  rw [List.getD_eq_getElem?_getD, List.getD_eq_getElem?_getD, List.getElem?_append_left h]

theorem getD_pad_right (ps : List PId) (c j : Nat) (h1 : ps.length ≤ j)
    (h2 : j < ps.length + c) : (ps ++ List.replicate c BY).getD j 0 = BY := by
  rw [List.getD_eq_getElem?_getD, List.getElem?_append_right h1]
  rw [List.getElem?_replicate]
  rw [if_pos (by omega)]
  rfl

theorem getD_mem_of_lt (ps : List PId) (j : Nat) (h : j < ps.length) :
    ps.getD j 0 ∈ ps := by
  rw [List.getD_eq_getElem?_getD, List.getElem?_eq_getElem h]
  exact List.getElem_mem h

theorem process_elim_advance (s : ElimState) (i p : MId) (m : MatchD) (w : PId)
    (hsrc asrc : MId) (pm : MatchD)
    (hbr : alookup s.bracket i = some p) (hm : s.arena.get? i = some m)
    (hw : m.winner = some (RVal.player w))
    (hso : alookup s.sources p = some (hsrc, asrc))
    (hpm : s.arena.get? p = some pm) :
    (process_match_result_elim s i).2 = none ∧
    ((process_match_result_elim s i).1).arena.get? p =
      some (if i = hsrc then { pm with home := some w }
            else { pm with away := some w }) ∧
    (∀ j, ¬j = p → ((process_match_result_elim s i).1).arena.get? j = s.arena.get? j) ∧
    ((process_match_result_elim s i).1).arena.length = s.arena.length ∧
    ((process_match_result_elim s i).1).score = s.score ∧
    ((process_match_result_elim s i).1).matchList = s.matchList ∧
    ((process_match_result_elim s i).1).bracket = s.bracket ∧
    ((process_match_result_elim s i).1).sources = s.sources ∧
    ((process_match_result_elim s i).1).participants = s.participants ∧
    ((process_match_result_elim s i).1).rounds = s.rounds ∧
    ((process_match_result_elim s i).1).fieldSize = s.fieldSize := by
  rw [process_match_result_elim_eq]
  simp only [hbr, hm, hw, hso, hpm]
  have hplen : p < s.arena.length := (List.get?_eq_some.mp hpm).1
  by_cases hact : (if i = hsrc then { pm with home := some w }
      else { pm with away := some w }).active = true
  · rw [if_pos hact]
    refine ⟨rfl, ?_, ?_, by simp, rfl, rfl, rfl, rfl, rfl, rfl, rfl⟩
    · show (s.arena.set p _).get? p = _
      exact List.get?_set_eq_of_lt _ hplen
    · intro j hj
      show (s.arena.set p _).get? j = _
      rw [List.get?_set_ne _ _ (fun hh => hj hh.symm)]
  · rw [if_neg hact]
    refine ⟨rfl, ?_, ?_, by simp, rfl, rfl, rfl, rfl, rfl, rfl, rfl⟩
    · show (s.arena.set p _).get? p = _
      exact List.get?_set_eq_of_lt _ hplen
    · intro j hj
      show (s.arena.set p _).get? j = _
      rw [List.get?_set_ne _ _ (fun hh => hj hh.symm)]

theorem bye_step (ps : List PId) (F : Nat) (hnd : ps.Nodup) (hBY : BY ∉ ps)
    (hN2 : 2 ≤ ps.length) (hFN : ps.length ≤ F) (hLN : F / 2 < ps.length)
    (hFe : F % 2 = 0) (k : Nat) (s : ElimState)
    (hInv : SeedInv ps F k s) (hk : k < F - ps.length) :
    (report_result_elim s k (RVal.player (ps.getD k 0))).2 = none ∧
    SeedInv ps F (k + 1) (report_result_elim s k (RVal.player (ps.getD k 0))).1 ∧
    (report_result_elim s k (RVal.player (ps.getD k 0))).1.rounds = s.rounds ∧
    (report_result_elim s k (RVal.player (ps.getD k 0))).1.fieldSize = s.fieldSize ∧
    (report_result_elim s k (RVal.player (ps.getD k 0))).1.participants =
      s.participants := by
  obtain ⟨hA, hML, hBR, hBRb, hSO, hLink, hLeaf, hPl, hSc⟩ := hInv
  have hBL : F - ps.length < F / 2 := by omega
  have hF4 : 4 ≤ F := by omega
  have hkN : k < ps.length := by omega
  have hkL : k < F / 2 := by omega
  obtain ⟨mk0, hmk, hmkh, hmka, hmkw⟩ := hLeaf k hkL
  have hpadk : (ps ++ List.replicate (F - ps.length) BY).getD k 0 = ps.getD k 0 :=
    getD_pad_left ps (F - ps.length) k hkN
  have hmh : mk0.home = some (ps.getD k 0) := by rw [hmkh, hpadk]
  have hmka2 : mk0.away = some BY := by
    rw [hmka, getD_pad_right ps (F - ps.length) (F - 1 - k) (by omega) (by omega)]
  have hhmem : ps.getD k 0 ∈ ps := getD_mem_of_lt ps k hkN
  have hhBY : ¬ps.getD k 0 = BY := fun he => hBY (he ▸ hhmem)
  set m1 : MatchD := record_result mk0 (RVal.player (ps.getD k 0)) with hm1
  have hm1w : m1.winner = some (RVal.player (ps.getD k 0)) := by
    rw [hm1]
    rfl
  have hm1l : m1.loser = some (LVal.slot mk0.away) := by
    rw [hm1]
    show some (if mk0.home = some (ps.getD k 0) then LVal.slot mk0.away
      else LVal.slot mk0.home) = some (LVal.slot mk0.away)
    rw [hmh, if_pos rfl]
  have hcalc : calc_match_points s.score m1 =
      (bump (bump s.score (ps.getD k 0) 3) BY 0, none) := by
    have e0 : calc_match_points s.score m1 =
        (match m1.loser with
         | some (LVal.slot (some q)) => (bump (bump s.score (ps.getD k 0) 3) q 0, none)
         | _ => (bump s.score (ps.getD k 0) 3, some Err.noneAttr)) := rfl
    rw [e0, hm1l, hmka2]
  have hklen : k < s.arena.length := (List.get?_eq_some.mp hmk).1
  have harena : (s.arena.set k m1).get? k = some m1 := List.get?_set_eq_of_lt _ hklen
  set S2 : ElimState := { s with
    arena := s.arena.set k m1
    score := bump (bump s.score (ps.getD k 0) 3) BY 0
    events := s.events ++ [Event.onMatchComplete k] } with hS2
  have e1 : report_result_elim s k (RVal.player (ps.getD k 0)) =
      process_match_result_elim S2 k := by
    rw [report_result_elim_eq, hmk]
    show handle_match_result_elim { s with arena := s.arena.set k m1 } k m1 =
      process_match_result_elim S2 k
    rw [handle_match_result_elim_eq]
    rw [show calc_match_points ({ s with arena := s.arena.set k m1 } : ElimState).score m1 =
        (bump (bump s.score (ps.getD k 0) 3) BY 0, none) from hcalc]
  have hkmem : k ∈ s.bracket.map Prod.fst := by
    rw [hBR]
    exact List.mem_range.mpr (by omega)
  obtain ⟨p, hp⟩ := Option.isSome_iff_exists.mp ((alookup_isSome_iff s.bracket k).mpr hkmem)
  have hkp : (k, p) ∈ s.bracket := alookup_eq_some_mem s.bracket k p hp
  obtain ⟨hpge, hplt⟩ := hBRb (k, p) hkp
  have hpge2 : F / 2 ≤ p := hpge
  have hplt2 : p < F - 1 := hplt
  obtain ⟨x, y, hxy, hxyor⟩ := hLink (k, p) hkp
  have hxy2 : (p, x, y) ∈ s.sources := hxy
  have hndso : (s.sources.map Prod.fst).Nodup := by
    have h0 : s.sources.map Prod.fst = List.range' (F / 2) (F / 2 - 1) := hSO
    rw [h0]
    exact List.nodup_range' _ _
  have hsoval : alookup s.sources p = some (x, y) :=
    alookup_of_mem_nodup s.sources p (x, y) hxy2 hndso
  obtain ⟨mp, hmp, hmpw, hmph, hmpa⟩ := hPl p hpge2 hplt2
  have hpk : ¬p = k := by
    intro he
    rw [he] at hpge2
    omega
  have hmp2 : (s.arena.set k m1).get? p = some mp := by
    rw [List.get?_set_ne _ _ (fun hh => hpk hh.symm)]
    exact hmp
  obtain ⟨r0, r1, r2, r3, r4, r5, r6, r7, r8, r9, r10⟩ :=
    process_elim_advance S2 k p m1 (ps.getD k 0) x y mp
      (show alookup S2.bracket k = some p from hp)
      (show S2.arena.get? k = some m1 from harena)
      hm1w
      (show alookup S2.sources p = some (x, y) from hsoval)
      (show S2.arena.get? p = some mp from hmp2)
  rw [e1]
  refine ⟨r0, ?_, r9, r10, r8⟩
  refine ⟨?_, ?_, ?_, ?_, ?_, ?_, ?_, ?_, ?_⟩
  · rw [r3]
    show (s.arena.set k m1).length = F - 1
    rw [List.length_set]
    exact hA
  · rw [r5]
    exact hML
  · rw [r6]
    exact hBR
  · intro cp hcp
    rw [r6] at hcp
    exact hBRb cp hcp
  · rw [r7]
    exact hSO
  · intro cp hcp
    rw [r6] at hcp
    obtain ⟨a, b, hmem, horr⟩ := hLink cp hcp
    exact ⟨a, b, by rw [r7]; exact hmem, horr⟩
  · intro i hi
    by_cases hik : i = k
    · subst hik
      refine ⟨m1, ?_, ?_, ?_, ?_⟩
      · rw [r2 i (fun he => hpk he.symm)]
        exact harena
      · rw [hm1]
        exact hmkh
      · rw [hm1]
        exact hmka
      · rw [if_pos (show i < min (i + 1) (F - ps.length) from by omega), hm1]
        rfl
    · have hip : ¬i = p := fun he => by rw [he] at hi; omega
      obtain ⟨mi, hmi, hmih, hmia, hmiw⟩ := hLeaf i hi
      refine ⟨mi, ?_, hmih, hmia, ?_⟩
      · rw [r2 i hip]
        show (s.arena.set k m1).get? i = some mi
        rw [List.get?_set_ne _ _ (fun hh => hik hh.symm)]
        exact hmi
      · by_cases hlt : i < k
        · rw [hmiw, if_pos (show i < min k (F - ps.length) from by omega),
            if_pos (show i < min (k + 1) (F - ps.length) from by omega)]
        · rw [hmiw, if_neg (show ¬i < min k (F - ps.length) from by omega),
            if_neg (show ¬i < min (k + 1) (F - ps.length) from by omega)]
  · intro q hq1 hq2
    by_cases hqp : q = p
    · subst hqp
      refine ⟨(if k = x then { mp with home := some (ps.getD k 0) }
               else { mp with away := some (ps.getD k 0) }), r1, ?_, ?_, ?_⟩
      · by_cases hkx : k = x
        · rw [if_pos hkx]
          exact hmpw
        · rw [if_neg hkx]
          exact hmpw
      · intro z hz
        by_cases hkx : k = x
        · rw [if_pos hkx] at hz
          have hz2 : some (ps.getD k 0) = some z := hz
          obtain rfl : ps.getD k 0 = z := Option.some.inj hz2
          exact hhmem
        · rw [if_neg hkx] at hz
          exact hmph z hz
      · intro z hz
        by_cases hkx : k = x
        · rw [if_pos hkx] at hz
          exact hmpa z hz
        · rw [if_neg hkx] at hz
          have hz2 : some (ps.getD k 0) = some z := hz
          obtain rfl : ps.getD k 0 = z := Option.some.inj hz2
          exact hhmem
    · obtain ⟨mq, hmq, hmqw, hmqh, hmqa⟩ := hPl q hq1 hq2
      have hqk : ¬q = k := fun he => by rw [he] at hq1; omega
      refine ⟨mq, ?_, hmqw, hmqh, hmqa⟩
      rw [r2 q hqp]
      show (s.arena.set k m1).get? q = some mq
      rw [List.get?_set_ne _ _ (fun hh => hqk hh.symm)]
      exact hmq
  · intro z
    have hz0 : (process_match_result_elim S2 k).1.score z =
        bump (bump s.score (ps.getD k 0) 3) BY 0 z := by rw [r4]
    rw [hz0]
    show (if z = BY then (if z = ps.getD k 0 then s.score z + 3 else s.score z) + 0
          else (if z = ps.getD k 0 then s.score z + 3 else s.score z)) =
      (if z ∈ ps.take (min (k + 1) (F - ps.length)) then 3 else 0)
    have hmin1 : min (k + 1) (F - ps.length) = k + 1 := by omega
    have hmin0 : min k (F - ps.length) = k := by omega
    have hscz := hSc z
    rw [hmin0] at hscz
    rw [hmin1]
    have hgk : ps[k]? = some (ps.getD k 0) := by
      rw [List.getElem?_eq_getElem hkN, List.getD_eq_getElem?_getD,
        List.getElem?_eq_getElem hkN]
      rfl
    have htk : ps.take (k + 1) = ps.take k ++ [ps.getD k 0] := by
      rw [List.take_succ, hgk]
      rfl
    have hnotin : ¬ps.getD k 0 ∈ ps.take k := by
      intro hmem
      have hnd2 : (ps.take (k + 1)).Nodup :=
        List.Nodup.sublist (List.take_sublist (k + 1) ps) hnd
      rw [htk] at hnd2
      rcases List.nodup_append.mp hnd2 with ⟨h1, h2, h3⟩
      exact h3 hmem (by simp)
    by_cases hzBY : z = BY
    · subst hzBY
      rw [if_pos rfl, if_neg (fun hc => hhBY (Eq.symm hc))]
      have hnm : ¬BY ∈ ps.take (k + 1) := fun hmem => hBY (List.mem_of_mem_take hmem)
      have hnm0 : ¬BY ∈ ps.take k := fun hmem => hBY (List.mem_of_mem_take hmem)
      rw [if_neg hnm, hscz, if_neg hnm0]
      decide
    · rw [if_neg hzBY]
      by_cases hzh : z = ps.getD k 0
      · rw [if_pos hzh, hscz, if_neg (fun hmem => hnotin (hzh ▸ hmem))]
        have hzmem : z ∈ ps.take (k + 1) := by
          rw [htk, hzh]
          simp
        rw [if_pos hzmem]
        decide
      · rw [if_neg hzh, hscz]
        by_cases hzt : z ∈ ps.take k
        · rw [if_pos hzt, if_pos (by rw [htk]; exact List.mem_append_left _ hzt)]
        · have hnm : ¬z ∈ ps.take (k + 1) := by
            intro hmem
            rw [htk] at hmem
            rcases List.mem_append.mp hmem with h1 | h2
            · exact hzt h1
            · exact hzh (by simpa using h2)
          rw [if_neg hzt, if_neg hnm]

theorem byeLoop_master (ps : List PId) (F : Nat) (hnd : ps.Nodup) (hBY : BY ∉ ps)
    (hN2 : 2 ≤ ps.length) (hFN : ps.length ≤ F) (hLN : F / 2 < ps.length)
    (hFe : F % 2 = 0) :
    ∀ (cnt k : Nat) (s : ElimState), SeedInv ps F k s → k + cnt = F - 1 →
    (byeLoop s (List.range' k cnt)).2 = none ∧
    SeedInv ps F (F - 1) (byeLoop s (List.range' k cnt)).1 ∧
    (byeLoop s (List.range' k cnt)).1.rounds = s.rounds ∧
    (byeLoop s (List.range' k cnt)).1.fieldSize = s.fieldSize ∧
    (byeLoop s (List.range' k cnt)).1.participants = s.participants := by
  intro cnt
  induction cnt with
  | zero =>
    intro k s hInv hsum
    have h0 : List.range' k 0 = ([] : List MId) := rfl
    rw [h0]
    have hb : byeLoop s [] = (s, none) := rfl
    rw [hb]
    exact ⟨rfl, by rw [show F - 1 = k from by omega]; exact hInv, rfl, rfl, rfl⟩
  | succ cnt ih =>
    intro k s hInv hsum
    have hr : List.range' k (cnt + 1) = k :: List.range' (k + 1) cnt := rfl
    rw [hr, byeLoop_cons]
    have hInv2 := hInv
    obtain ⟨hA, hML, hBR, hBRb, hSO, hLink, hLeaf, hPl, hSc⟩ := hInv2
    have hkF : k < F - 1 := by omega
    have hBL : F - ps.length < F / 2 := by omega
    by_cases hkL : k < F / 2
    · obtain ⟨mk0, hmk, hmkh, hmka, hmkw⟩ := hLeaf k hkL
      simp only [hmk]
      by_cases hbye : k < F - ps.length
      · have hmka2 : mk0.away = some BY := by
          rw [hmka, getD_pad_right ps (F - ps.length) (F - 1 - k) (by omega) (by omega)]
        have hmh : mk0.home = some (ps.getD k 0) := by
          rw [hmkh, getD_pad_left ps (F - ps.length) k (by omega)]
        rw [if_pos hmka2]
        simp only [hmh]
        obtain ⟨hb0, hbInv, hbr, hbf, hbp⟩ :=
          bye_step ps F hnd hBY hN2 hFN hLN hFe k s hInv hbye
        obtain ⟨s1, err1, hrep⟩ :
            ∃ a b, report_result_elim s k (RVal.player (ps.getD k 0)) = (a, b) :=
          ⟨_, _, rfl⟩
        rw [hrep] at hb0 hbInv hbr hbf hbp ⊢
        have herr : err1 = none := hb0
        subst herr
        have hInv1 : SeedInv ps F (k + 1) s1 := hbInv
        obtain ⟨i0, i1, i2, i3, i4⟩ := ih (k + 1) s1 hInv1 (by omega)
        exact ⟨i0, i1, i2.trans hbr, i3.trans hbf, i4.trans hbp⟩
      · have hfk : F - 1 - k < ps.length := by omega
        have hne : ¬mk0.away = some BY := by
          rw [hmka, getD_pad_left ps (F - ps.length) (F - 1 - k) hfk]
          intro hcon
          have hcv : ps.getD (F - 1 - k) 0 = BY := Option.some.inj hcon
          exact hBY (hcv ▸ getD_mem_of_lt ps (F - 1 - k) hfk)
        rw [if_neg hne]
        have hmm : min (k + 1) (F - ps.length) = min k (F - ps.length) := by omega
        have hInv1 : SeedInv ps F (k + 1) s := by
          unfold SeedInv at hInv ⊢
          rw [hmm]
          exact hInv
        exact ih (k + 1) s hInv1 (by omega)
    · obtain ⟨mp, hmp, hmpw, hmph, hmpa⟩ := hPl k (by omega) (by omega)
      simp only [hmp]
      have hne : ¬mp.away = some BY := fun hcon => hBY (hmpa BY hcon)
      rw [if_neg hne]
      have hmm : min (k + 1) (F - ps.length) = min k (F - ps.length) := by omega
      have hInv1 : SeedInv ps F (k + 1) s := by
        unfold SeedInv at hInv ⊢
        rw [hmm]
        exact hInv
      exact ih (k + 1) s hInv1 (by omega)

theorem seed_players_elim_eq (s : ElimState) :
    seed_players_elim s =
      if s.numPlayers = 0 then (s, some Err.mathDomain)
      else
        match seedLoop
          { s with
            rounds := ceilLog2 s.numPlayers
            fieldSize := 2 ^ ceilLog2 s.numPlayers }
          (s.participants ++
            List.replicate (2 ^ ceilLog2 s.numPlayers - s.numPlayers) BY) with
        | (s2, some e) => (s2, some e)
        | (s2, none) =>
          match bracketLoop s2 (List.range s2.arena.length) with
          | (s3, some e) => (s3, some e)
          | (s3, none) => byeLoop s3 s3.matchList := rfl

theorem range1_append (m : Nat) : ∀ (s n : Nat),
    List.range' s m ++ List.range' (s + m) n = List.range' s (m + n) := by
  induction m with
  | zero =>
    intro s n
    simp
  | succ m ih =>
    intro s n
    rw [List.range'_succ, List.cons_append]
    rw [show s + (m + 1) = s + 1 + m from by omega]
    rw [ih (s + 1) n]
    rw [show m + 1 + n = m + n + 1 from by omega, List.range'_succ]

theorem range0_append (m n : Nat) :
    List.range' 0 m ++ List.range' m n = List.range' 0 (m + n) := by
  have h := range1_append m 0 n
  rwa [Nat.zero_add] at h

theorem start_elim_seeded (ps : List PId) (hnd : ps.Nodup) (hBY : BY ∉ ps)
    (hN2 : 2 ≤ ps.length) :
    (start_elim (mkElim ps)).2 = none ∧
    SeedInv ps (2 ^ ceilLog2 ps.length) (2 ^ ceilLog2 ps.length - 1)
      (start_elim (mkElim ps)).1 ∧
    (start_elim (mkElim ps)).1.rounds = ceilLog2 ps.length ∧
    (start_elim (mkElim ps)).1.fieldSize = 2 ^ ceilLog2 ps.length ∧
    (start_elim (mkElim ps)).1.participants = ps := by
  have hr1 : 1 ≤ ceilLog2 ps.length := ceilLog2_pos _ hN2
  have hFN : ps.length ≤ 2 ^ ceilLog2 ps.length := (ceilLog2_spec ps.length (by omega)).1
  have hLN : 2 ^ ceilLog2 ps.length / 2 < ps.length := half_field_lt _ hN2
  have hFe : 2 ^ ceilLog2 ps.length % 2 = 0 := by
    obtain ⟨r0, hr0⟩ : ∃ r0, ceilLog2 ps.length = r0 + 1 :=
      ⟨ceilLog2 ps.length - 1, by omega⟩
    rw [hr0, pow_succ]
    exact Nat.mul_mod_left _ 2
  have hF2 : 2 ≤ 2 ^ ceilLog2 ps.length := by
    calc 2 = 2 ^ 1 := rfl
    _ ≤ 2 ^ ceilLog2 ps.length := Nat.pow_le_pow_right (by omega) hr1
  set s1 : ElimState :=
    { arena := []
      matchList := []
      participants := ps
      score := fun p => if p ∈ ps then (0 : Int) else 0
      history := fun _ => []
      currentMatch := fun _ => none
      bracket := []
      sources := []
      numPlayers := ps.length
      rounds := 0
      fieldSize := 0
      events := [Event.onStart] } with hs1
  have e0 : start_elim (mkElim ps) = seed_players_elim s1 := rfl
  set q : List PId :=
    ps ++ List.replicate (2 ^ ceilLog2 ps.length - ps.length) BY with hq
  have hqlen : q.length = 2 ^ ceilLog2 ps.length := by
    rw [hq, List.length_append, List.length_replicate]
    omega
  set s2 : ElimState :=
    { s1 with
      rounds := ceilLog2 ps.length
      fieldSize := 2 ^ ceilLog2 ps.length } with hs2
  have e1 : seed_players_elim s1 =
      (match seedLoopGo q.length s2 q with
       | (s3, some e) => (s3, some e)
       | (s3, none) =>
         match bracketLoopGo (List.range s3.arena.length).length s3
             (List.range s3.arena.length) with
         | (s4, some e) => (s4, some e)
         | (s4, none) => byeLoop s4 s4.matchList) := by
    rw [seed_players_elim_eq, if_neg (show ¬s1.numPlayers = 0 from by
      intro hc
      have hcc : ps.length = 0 := hc
      omega)]
    rfl
  obtain ⟨f0, f1, f2, f3, f4, f5, f6, f7, f8, f9, f10⟩ :=
    seedLoopGo_ok q.length s2 q (Nat.le_refl _) (by rw [hqlen]; exact hFe)
  obtain ⟨res2, err2, hsl⟩ : ∃ a b, seedLoopGo q.length s2 q = (a, b) := ⟨_, _, rfl⟩
  rw [hsl] at f0 f1 f2 f3 f4 f5 f6 f7 f8 f9 f10
  have herr2 : err2 = none := f0
  subst herr2
  have g1 : res2.arena.length = s2.arena.length + q.length / 2 := f1
  have g3 : ∀ i, i < q.length / 2 → res2.arena.get? (s2.arena.length + i) =
      some { home := some (q.getD i 0), away := some (q.getD (q.length - 1 - i) 0),
             winner := none, loser := none } := f3
  have g4 : res2.matchList = s2.matchList := f4
  have g5 : res2.bracket = s2.bracket := f5
  have g6 : res2.sources = s2.sources := f6
  have g7 : res2.score = s2.score := f7
  have g8 : res2.participants = s2.participants := f8
  have g9 : res2.rounds = s2.rounds := f9
  have g10 : res2.fieldSize = s2.fieldSize := f10
  have hres2len : res2.arena.length = 2 ^ ceilLog2 ps.length / 2 := by
    rw [g1, hqlen, show s2.arena.length = 0 from rfl]
    omega
  have g3n : ∀ i, i < 2 ^ ceilLog2 ps.length / 2 → res2.arena.get? i =
      some { home := some (q.getD i 0),
             away := some (q.getD (2 ^ ceilLog2 ps.length - 1 - i) 0),
             winner := none, loser := none } := by
    intro i hi
    have hh := g3 i (by rw [hqlen]; exact hi)
    rw [show s2.arena.length + i = i from by
      rw [show s2.arena.length = 0 from rfl]; omega] at hh
    rw [hqlen] at hh
    exact hh
  have hrangene : ¬List.range res2.arena.length = [] := by
    rw [hres2len]
    intro hc
    have hc2 := List.range_eq_nil.mp hc
    omega
  obtain ⟨b0, b1, b2, b3, b4, b5, b6, b7, b8, b9⟩ :=
    bracketLoopGo_ok (List.range res2.arena.length).length res2
      (List.range res2.arena.length) (Nat.le_refl _) hrangene
      (fun x hx => List.mem_range.mp hx)
  obtain ⟨res3, err3, hbl⟩ : ∃ a b,
      bracketLoopGo (List.range res2.arena.length).length res2
        (List.range res2.arena.length) = (a, b) := ⟨_, _, rfl⟩
  rw [hbl] at b0 b1 b2 b3 b4 b5 b6 b7 b8 b9
  have herr3 : err3 = none := b0
  subst herr3
  have e2 : seed_players_elim s1 = byeLoop res3 res3.matchList := by
    rw [e1, hsl]
    show (match bracketLoopGo (List.range res2.arena.length).length res2
        (List.range res2.arena.length) with
      | (s4, some e) => (s4, some e)
      | (s4, none) => byeLoop s4 s4.matchList) = byeLoop res3 res3.matchList
    rw [hbl]
  have hqr : (List.range res2.arena.length).length = 2 ^ ceilLog2 ps.length / 2 := by
    rw [List.length_range, hres2len]
  have gb1 : res3.arena.length =
      res2.arena.length + ((List.range res2.arena.length).length - 1) := b1
  have gb2 : ∀ j, j < res2.arena.length →
      res3.arena.get? j = res2.arena.get? j := b2
  have gb3 : ∀ j, res2.arena.length ≤ j →
      j < res2.arena.length + ((List.range res2.arena.length).length - 1) →
      res3.arena.get? j = some ({} : MatchD) := b3
  have gb4 : res3.matchList = res2.matchList ++ List.range res2.arena.length ++
      List.range' res2.arena.length ((List.range res2.arena.length).length - 1) := b4
  have gb6 : res3.score = res2.score := b6
  have gb7 : res3.participants = res2.participants := b7
  have gb8 : res3.rounds = res2.rounds := b8
  have gb9 : res3.fieldSize = res2.fieldSize := b9
  obtain ⟨nbr, nso, fm, pb1, pb2, pb3, pb4, pb5, pb6⟩ := b5
  have pb1g : res3.bracket = res2.bracket ++ nbr := pb1
  have pb2g : res3.sources = res2.sources ++ nso := pb2
  have pb3g : List.range res2.arena.length ++
      List.range' res2.arena.length ((List.range res2.arena.length).length - 1) =
      nbr.map Prod.fst ++ [fm] := pb3
  have pb4g : ∀ cp ∈ nbr, res2.arena.length ≤ cp.2 ∧
      cp.2 < res2.arena.length + ((List.range res2.arena.length).length - 1) := pb4
  have pb5g : nso.map (fun x => x.1) =
      List.range' res2.arena.length ((List.range res2.arena.length).length - 1) := pb5
  have pb6g : ∀ cp ∈ nbr, ∃ x y, (cp.2, x, y) ∈ nso ∧ (cp.1 = x ∨ cp.1 = y) := pb6
  have c1 : res3.arena.length = 2 ^ ceilLog2 ps.length - 1 := by
    rw [gb1, hqr, hres2len]
    omega
  have c2 : res3.matchList = List.range (2 ^ ceilLog2 ps.length - 1) := by
    rw [gb4, g4, show s2.matchList = ([] : List MId) from rfl, hqr, hres2len]
    rw [List.nil_append, List.range_eq_range', range0_append]
    rw [show 2 ^ ceilLog2 ps.length / 2 + (2 ^ ceilLog2 ps.length / 2 - 1) =
      2 ^ ceilLog2 ps.length - 1 from by omega]
    rw [List.range_eq_range']
  have c3 : res3.bracket = nbr := by
    rw [pb1g, g5, show s2.bracket = ([] : List (MId × MId)) from rfl, List.nil_append]
  have c6 : res3.sources = nso := by
    rw [pb2g, g6, show s2.sources = ([] : List (MId × MId × MId)) from rfl,
      List.nil_append]
  have hsplitR : nbr.map Prod.fst ++ [fm] = List.range (2 ^ ceilLog2 ps.length - 1) := by
    rw [← pb3g, hqr, hres2len, List.range_eq_range', range0_append]
    rw [show 2 ^ ceilLog2 ps.length / 2 + (2 ^ ceilLog2 ps.length / 2 - 1) =
      2 ^ ceilLog2 ps.length - 1 from by omega]
    rw [List.range_eq_range']
  have hkeys : nbr.map Prod.fst = List.range (2 ^ ceilLog2 ps.length - 2) := by
    have h2 : nbr.map Prod.fst ++ [fm] =
        List.range (2 ^ ceilLog2 ps.length - 2) ++ [2 ^ ceilLog2 ps.length - 2] := by
      rw [hsplitR, show 2 ^ ceilLog2 ps.length - 1 =
        2 ^ ceilLog2 ps.length - 2 + 1 from by omega, List.range_succ]
    exact (List.append_inj' h2 rfl).1
  have c4 : ∀ cp ∈ nbr, 2 ^ ceilLog2 ps.length / 2 ≤ cp.2 ∧
      cp.2 < 2 ^ ceilLog2 ps.length - 1 := by
    intro cp hcp
    obtain ⟨h1, h2⟩ := pb4g cp hcp
    rw [hres2len] at h1
    rw [hqr, hres2len] at h2
    exact ⟨h1, (show 2 ^ ceilLog2 ps.length / 2 + (2 ^ ceilLog2 ps.length / 2 - 1) =
      2 ^ ceilLog2 ps.length - 1 from by omega) ▸ h2⟩
  have c5 : nso.map (fun x => x.1) =
      List.range' (2 ^ ceilLog2 ps.length / 2) (2 ^ ceilLog2 ps.length / 2 - 1) := by
    rw [pb5g, hqr, hres2len]
  have hInv0 : SeedInv ps (2 ^ ceilLog2 ps.length) 0 res3 := by
    refine ⟨c1, c2, ?_, ?_, ?_, ?_, ?_, ?_, ?_⟩
    · rw [c3]
      exact hkeys
    · intro cp hcp
      rw [c3] at hcp
      exact c4 cp hcp
    · rw [c6]
      exact c5
    · intro cp hcp
      rw [c3] at hcp
      obtain ⟨x, y, hm, ho⟩ := pb6g cp hcp
      exact ⟨x, y, by rw [c6]; exact hm, ho⟩
    · intro i hi
      have hget : res3.arena.get? i = res2.arena.get? i :=
        gb2 i (by rw [hres2len]; exact hi)
      rw [hget, g3n i hi]
      refine ⟨{ home := some (q.getD i 0),
                away := some (q.getD (2 ^ ceilLog2 ps.length - 1 - i) 0),
                winner := none, loser := none }, rfl, ?_, ?_, ?_⟩
      · show some (q.getD i 0) = some ((ps ++
          List.replicate (2 ^ ceilLog2 ps.length - ps.length) BY).getD i 0)
        rw [hq]
      · show some (q.getD (2 ^ ceilLog2 ps.length - 1 - i) 0) = some ((ps ++
          List.replicate (2 ^ ceilLog2 ps.length - ps.length) BY).getD
            (2 ^ ceilLog2 ps.length - 1 - i) 0)
        rw [hq]
      · rw [if_neg (show ¬i < min 0 (2 ^ ceilLog2 ps.length - ps.length) from
          by omega)]
    · intro p hp1 hp2
      have hget : res3.arena.get? p = some ({} : MatchD) :=
        gb3 p (by rw [hres2len]; exact hp1)
          (by rw [hqr, hres2len]; omega)
      refine ⟨({} : MatchD), hget, rfl, ?_, ?_⟩
      · intro z hz
        exact Option.noConfusion hz
      · intro z hz
        exact Option.noConfusion hz
    · intro z
      have hsc : res3.score z = s2.score z := by rw [gb6, g7]
      rw [hsc]
      show (if z ∈ ps then (0 : Int) else 0) =
        if z ∈ ps.take (min 0 (2 ^ ceilLog2 ps.length - ps.length)) then 3 else 0
      rw [show min 0 (2 ^ ceilLog2 ps.length - ps.length) = 0 from by omega]
      rw [List.take_zero, if_neg (List.not_mem_nil z)]
      exact ite_self _
  obtain ⟨m0, m1, m2, m3, m4⟩ := byeLoop_master ps (2 ^ ceilLog2 ps.length) hnd hBY
    hN2 hFN hLN hFe (2 ^ ceilLog2 ps.length - 1) 0 res3 hInv0 (by omega)
  have e3 : byeLoop res3 res3.matchList =
      byeLoop res3 (List.range' 0 (2 ^ ceilLog2 ps.length - 1)) := by
    rw [c2, List.range_eq_range']
  refine ⟨?_, ?_, ?_, ?_, ?_⟩
  · rw [e0, e2, e3]
    exact m0
  · rw [e0, e2, e3]
    exact m1
  · rw [e0, e2, e3, m2, gb8, g9]
  · rw [e0, e2, e3, m3, gb9, g10]
  · rw [e0, e2, e3, m4, gb7, g8]

theorem field_even (n : Nat) (hn : 2 ≤ n) : 2 ^ ceilLog2 n % 2 = 0 := by
  have hr1 := ceilLog2_pos n hn
  obtain ⟨r0, hr0⟩ : ∃ r0, ceilLog2 n = r0 + 1 := ⟨ceilLog2 n - 1, by omega⟩
  rw [hr0, pow_succ]
  exact Nat.mul_mod_left _ 2

theorem getD_mem_take (l : List PId) (n i : Nat) (hin : i < n) (hil : i < l.length) :
    l.getD i 0 ∈ l.take n := by
  have h1 : (l.take n).get? i = some (l.getD i 0) := by
    rw [List.get?_take hin]
    rw [List.get?_eq_getElem?, List.getElem?_eq_getElem hil, List.getD_eq_getElem?_getD,
      List.getElem?_eq_getElem hil]
    rfl
  exact List.get?_mem h1

/-- Claim C4 (code bug): the claimed behaviour holds of the exact-ceiling
idealization of seeding, i.e. of the intent the claim states.  For `N ≥ 2`
distinct participants (none the bye sentinel): seeding succeeds,
`field_size = 2 ^ ceilLog2 N` is a power of two at least `N` and minimal with
that property, the round count is `ceilLog2 N`, the `field_size / 2`
first-round matches pair position `i` of the bye-padded queue (front,
strongest) with position `field_size - 1 - i` (back, weakest), the match list
holds all `field_size - 1` match ids, and exactly one match (the final) has
no parent in the bracket lookup.  The program itself computes the round count
in double precision and violates the minimality clause at reachable counts:
at `N = 2 ^ 29` the computed `log(N)/log(2)` exceeds 29, so the code picks
`field_size = 2 ^ 30`, twice the smallest power of two `≥ N`. -/
theorem c4_elim_seeding (ps : List PId) (hnd : ps.Nodup) (hBY : BY ∉ ps)
    (hN2 : 2 ≤ ps.length) :
    (start_elim (mkElim ps)).2 = none ∧
    (start_elim (mkElim ps)).1.fieldSize = 2 ^ ceilLog2 ps.length ∧
    ps.length ≤ 2 ^ ceilLog2 ps.length ∧
    (∀ j, ps.length ≤ 2 ^ j → ceilLog2 ps.length ≤ j) ∧
    (start_elim (mkElim ps)).1.rounds = ceilLog2 ps.length ∧
    (start_elim (mkElim ps)).1.arena.length = 2 ^ ceilLog2 ps.length - 1 ∧
    (∀ i, i < 2 ^ ceilLog2 ps.length / 2 →
      ∃ mi, (start_elim (mkElim ps)).1.arena.get? i = some mi ∧
        mi.home = some ((ps ++ List.replicate (2 ^ ceilLog2 ps.length - ps.length)
          BY).getD i 0) ∧
        mi.away = some ((ps ++ List.replicate (2 ^ ceilLog2 ps.length - ps.length)
          BY).getD (2 ^ ceilLog2 ps.length - 1 - i) 0)) ∧
    (start_elim (mkElim ps)).1.matchList = List.range (2 ^ ceilLog2 ps.length - 1) ∧
    ((start_elim (mkElim ps)).1.matchList.filter
      (fun m => (alookup (start_elim (mkElim ps)).1.bracket m).isNone)).length = 1 := by
  obtain ⟨h0, hInv, hro, hfs, hpa⟩ := start_elim_seeded ps hnd hBY hN2
  obtain ⟨hA, hML, hBR, hBRb, hSO, hLink, hLeaf, hPl, hSc⟩ := hInv
  have hF2 : 2 ≤ 2 ^ ceilLog2 ps.length := by
    calc 2 = 2 ^ 1 := rfl
    _ ≤ 2 ^ ceilLog2 ps.length :=
      Nat.pow_le_pow_right (by omega) (ceilLog2_pos _ hN2)
  refine ⟨h0, hfs, (ceilLog2_spec ps.length (by omega)).1,
    (ceilLog2_spec ps.length (by omega)).2, hro, hA, ?_, hML, ?_⟩
  · intro i hi
    obtain ⟨mi, hmi, hh, ha, _⟩ := hLeaf i hi
    exact ⟨mi, hmi, hh, ha⟩
  · rw [hML]
    rw [show 2 ^ ceilLog2 ps.length - 1 = 2 ^ ceilLog2 ps.length - 2 + 1 from by omega,
      List.range_succ, List.filter_append]
    have h1 : (List.range (2 ^ ceilLog2 ps.length - 2)).filter
        (fun m => (alookup (start_elim (mkElim ps)).1.bracket m).isNone) = [] := by
      rw [List.filter_eq_nil]
      intro a ha
      have halt : a < 2 ^ ceilLog2 ps.length - 2 := List.mem_range.mp ha
      have hsome : (alookup (start_elim (mkElim ps)).1.bracket a).isSome = true :=
        (alookup_isSome_iff _ _).mpr (by rw [hBR]; exact List.mem_range.mpr halt)
      intro hc
      rw [Option.isNone_iff_eq_none] at hc
      rw [hc] at hsome
      exact Bool.noConfusion hsome
    have h2 : List.filter
        (fun m => (alookup (start_elim (mkElim ps)).1.bracket m).isNone)
        [2 ^ ceilLog2 ps.length - 2] = [2 ^ ceilLog2 ps.length - 2] := by
      have hnone : alookup (start_elim (mkElim ps)).1.bracket
          (2 ^ ceilLog2 ps.length - 2) = none := by
        rw [alookup_eq_none_iff, hBR]
        intro hmem
        have hcc := List.mem_range.mp hmem
        omega
      simp [List.filter, hnone]
    rw [h1, h2]
    rfl

/-- Witness for C4 at participants `[1, 2, 3]`: seeding succeeds with
`field_size = 4`, two rounds, and exactly one parentless match. -/
theorem c4_elim_seeding_witness :
    (2 ≤ ([1, 2, 3] : List PId).length ∧ ([1, 2, 3] : List PId).Nodup ∧
      ¬BY ∈ ([1, 2, 3] : List PId)) ∧
    (start_elim (mkElim [1, 2, 3])).2 = none ∧
    (start_elim (mkElim [1, 2, 3])).1.fieldSize = 4 ∧
    (start_elim (mkElim [1, 2, 3])).1.rounds = 2 ∧
    ((start_elim (mkElim [1, 2, 3])).1.matchList.filter
      (fun m => (alookup (start_elim (mkElim [1, 2, 3])).1.bracket m).isNone)).length
      = 1 := by
  have h := c4_elim_seeding [1, 2, 3] (by decide) (by decide) (by decide)
  refine ⟨⟨by decide, by decide, by decide⟩, h.1, ?_, ?_, h.2.2.2.2.2.2.2.2⟩
  · rw [h.2.1]
    decide
  · rw [h.2.2.2.2.1]
    decide

/-- Claim C5: after elimination seeding over `N ≥ 2` distinct participants
(none the bye sentinel), every match whose away slot is the bye placeholder is
completed in favour of its home participant — its winner is set to the home
player, a real (non-bye) participant — before any external result is
reported. -/
theorem c5_byes_completed (ps : List PId) (hnd : ps.Nodup) (hBY : BY ∉ ps)
    (hN2 : 2 ≤ ps.length) :
    (start_elim (mkElim ps)).2 = none ∧
    ∀ i mi, (start_elim (mkElim ps)).1.arena.get? i = some mi →
      mi.away = some BY →
      ∃ h, mi.home = some h ∧ ¬h = BY ∧ mi.winner = some (RVal.player h) := by
  obtain ⟨h0, hInv, _, _, _⟩ := start_elim_seeded ps hnd hBY hN2
  obtain ⟨hA, hML, hBR, hBRb, hSO, hLink, hLeaf, hPl, hSc⟩ := hInv
  have hFN : ps.length ≤ 2 ^ ceilLog2 ps.length := (ceilLog2_spec ps.length (by omega)).1
  have hLN : 2 ^ ceilLog2 ps.length / 2 < ps.length := half_field_lt _ hN2
  have hFe : 2 ^ ceilLog2 ps.length % 2 = 0 := field_even ps.length hN2
  refine ⟨h0, ?_⟩
  intro i mi hmi hby
  have hilen : i < (start_elim (mkElim ps)).1.arena.length := (List.get?_eq_some.mp hmi).1
  rw [hA] at hilen
  by_cases hiL : i < 2 ^ ceilLog2 ps.length / 2
  · obtain ⟨mi2, hmi2, hh, ha, hw⟩ := hLeaf i hiL
    have heq : mi = mi2 := Option.some.inj (hmi.symm.trans hmi2)
    subst heq
    by_cases hib : i < 2 ^ ceilLog2 ps.length - ps.length
    · refine ⟨ps.getD i 0, ?_, ?_, ?_⟩
      · rw [hh, getD_pad_left ps _ i (by omega)]
      · intro hc
        exact hBY (hc ▸ getD_mem_of_lt ps i (by omega))
      · rw [hw, if_pos (by omega)]
    · exfalso
      have hidx : (ps ++ List.replicate (2 ^ ceilLog2 ps.length - ps.length)
          BY).getD (2 ^ ceilLog2 ps.length - 1 - i) 0 = BY :=
        Option.some.inj (ha.symm.trans hby)
      have hfk : 2 ^ ceilLog2 ps.length - 1 - i < ps.length := by omega
      rw [getD_pad_left ps _ _ hfk] at hidx
      exact hBY (hidx ▸ getD_mem_of_lt ps _ hfk)
  · exfalso
    obtain ⟨mp, hmp, hmpw, hmph, hmpa⟩ := hPl i (by omega) (by omega)
    have heq : mi = mp := Option.some.inj (hmi.symm.trans hmp)
    rw [heq] at hby
    exact hBY (hmpa BY hby)

/-- Witness for C5 at participants `[1, 2, 3]`: seeded match 0 pairs player 1
with the bye and is completed with winner player 1. -/
theorem c5_byes_completed_witness :
    (2 ≤ ([1, 2, 3] : List PId).length ∧ ([1, 2, 3] : List PId).Nodup ∧
      ¬BY ∈ ([1, 2, 3] : List PId)) ∧
    ∃ h, (demoByeMatch).home = some h ∧ ¬h = BY ∧
      (demoByeMatch).winner = some (RVal.player h) :=
  ⟨⟨by decide, by decide, by decide⟩,
    (c5_byes_completed [1, 2, 3] (by decide) (by decide) (by decide)).2 0
      demoByeMatch (by decide) (by decide)⟩

/-- Claim C10: byes are scored by the ordinary scoring policy: after
elimination seeding over `N ≥ 2` distinct participants (none the bye
sentinel), the home participant of every bye match holds the full win value of
3 points — identical to winning a real match — before any external result is
reported. -/
theorem c10_bye_scoring (ps : List PId) (hnd : ps.Nodup) (hBY : BY ∉ ps)
    (hN2 : 2 ≤ ps.length) :
    (start_elim (mkElim ps)).2 = none ∧
    ∀ i mi, (start_elim (mkElim ps)).1.arena.get? i = some mi →
      mi.away = some BY →
      ∃ h, mi.home = some h ∧ (start_elim (mkElim ps)).1.score h = 3 := by
  obtain ⟨h0, hInv, _, _, _⟩ := start_elim_seeded ps hnd hBY hN2
  obtain ⟨hA, hML, hBR, hBRb, hSO, hLink, hLeaf, hPl, hSc⟩ := hInv
  have hFN : ps.length ≤ 2 ^ ceilLog2 ps.length := (ceilLog2_spec ps.length (by omega)).1
  have hLN : 2 ^ ceilLog2 ps.length / 2 < ps.length := half_field_lt _ hN2
  have hFe : 2 ^ ceilLog2 ps.length % 2 = 0 := field_even ps.length hN2
  refine ⟨h0, ?_⟩
  intro i mi hmi hby
  have hilen : i < (start_elim (mkElim ps)).1.arena.length := (List.get?_eq_some.mp hmi).1
  rw [hA] at hilen
  by_cases hiL : i < 2 ^ ceilLog2 ps.length / 2
  · obtain ⟨mi2, hmi2, hh, ha, hw⟩ := hLeaf i hiL
    have heq : mi = mi2 := Option.some.inj (hmi.symm.trans hmi2)
    subst heq
    by_cases hib : i < 2 ^ ceilLog2 ps.length - ps.length
    · refine ⟨ps.getD i 0, ?_, ?_⟩
      · rw [hh, getD_pad_left ps _ i (by omega)]
      · rw [hSc]
        have hmem : ps.getD i 0 ∈ ps.take (min (2 ^ ceilLog2 ps.length - 1)
            (2 ^ ceilLog2 ps.length - ps.length)) := by
          rw [show min (2 ^ ceilLog2 ps.length - 1)
            (2 ^ ceilLog2 ps.length - ps.length) =
            2 ^ ceilLog2 ps.length - ps.length from by omega]
          exact getD_mem_take ps (2 ^ ceilLog2 ps.length - ps.length) i hib (by omega)
        rw [if_pos hmem]
    · exfalso
      have hidx : (ps ++ List.replicate (2 ^ ceilLog2 ps.length - ps.length)
          BY).getD (2 ^ ceilLog2 ps.length - 1 - i) 0 = BY :=
        Option.some.inj (ha.symm.trans hby)
      have hfk : 2 ^ ceilLog2 ps.length - 1 - i < ps.length := by omega
      rw [getD_pad_left ps _ _ hfk] at hidx
      exact hBY (hidx ▸ getD_mem_of_lt ps _ hfk)
  · exfalso
    obtain ⟨mp, hmp, hmpw, hmph, hmpa⟩ := hPl i (by omega) (by omega)
    have heq : mi = mp := Option.some.inj (hmi.symm.trans hmp)
    rw [heq] at hby
    exact hBY (hmpa BY hby)

/-- Witness for C10 at participants `[1, 2, 3]`: the home player of the bye
match (player 1) holds 3 points right after seeding. -/
theorem c10_bye_scoring_witness :
    (2 ≤ ([1, 2, 3] : List PId).length ∧ ([1, 2, 3] : List PId).Nodup ∧
      ¬BY ∈ ([1, 2, 3] : List PId)) ∧
    ∃ h, (demoByeMatch).home = some h ∧
      (start_elim (mkElim [1, 2, 3])).1.score h = 3 :=
  ⟨⟨by decide, by decide, by decide⟩,
    (c10_bye_scoring [1, 2, 3] (by decide) (by decide) (by decide)).2 0
      demoByeMatch (by decide) (by decide)⟩
